import Mathlib

/-!
Formal model of the topology-aware session orchestration engine of the
connection-management experiment: the SessionManager (session lifecycle state
machine, prerequisite validation, reachability, gateway address pool) and the
PacketAnimator (path planning and the per-tick animation scheduler).

Modelling conventions, chosen to mirror the JavaScript source:
- optional / possibly-undefined JavaScript fields become Option types, and the
  JavaScript defaulting idiom x || d (where 0, the empty string and undefined
  are falsy) is modelled by explicit helpers;
- gateway-pool addresses all have the fixed textual form 10.0.0.k, so they are
  represented by their final octet k (a Nat); the exhaustion fallback string
  10.0.0.2 is the octet 2;
- wall-clock timestamps (assignedAt, createdAt, establishedAt) and purely
  presentational fields (colors, log payloads) influence no modelled behaviour
  and are omitted;
- an exception thrown by an awaited protocol exchange is modelled by an
  injected fault parameter naming the exchange that throws;
- the Topology Store (window.dataStore) is not among the given sources, only
  its callers are; its query operations are modelled from the spec, which
  describes it as pure data with query operations.
-/

/-- Lifecycle states of a PDU session, mirroring SessionManager.STATES. -/
inductive SessionState where
  | IDLE
  | ESTABLISHING
  | ACTIVE
  | RELEASING
  | RELEASED
  deriving DecidableEq, Repr

/-- JavaScript defaulting x || d for an optional numeric field: undefined and 0
are falsy and select the default. -/
def jsOrNat : Option Nat → Nat → Nat
  | none, d => d
  | some n, d => if n = 0 then d else n

/-- JavaScript defaulting x || d for an optional string field: undefined and
the empty string are falsy and select the default. -/
def jsOrStr : Option String → String → String
  | none, d => d
  | some s, d => if s = "" then d else s

/-- JavaScript truthiness of an optional string field. -/
def jsTruthyStr : Option String → Bool
  | none => false
  | some s => s != ""

/-- One entry of the gateway pool mapping, an element of
upf.config.tun0Interface.assignedIPs. The allocation timestamp is omitted. -/
structure AssignedIP where
  ueId : String
  ueName : String
  ip : Nat
  deriving DecidableEq, Repr

/-- The gateway address pool attached to a UPF node as its tun0 sub-interface.
Only the fields read or written by the modelled operations are kept. -/
structure Tun0 where
  gatewayIP : Option String
  nextAvailableIP : Option Nat
  assignedIPs : Option (List AssignedIP)
  deriving DecidableEq, Repr

/-- Effective next-free counter of a pool: tun0.nextAvailableIP || 2. -/
def effNext (t : Tun0) : Nat := jsOrNat t.nextAvailableIP 2

/-- Effective allocation mapping of a pool: tun0.assignedIPs || empty. -/
def poolIPs (t : Tun0) : List AssignedIP := t.assignedIPs.getD []

/-- Whether the octet k is present in the pool mapping. -/
def ipTaken (t : Tun0) (k : Nat) : Bool := (poolIPs t).any (fun a => a.ip == k)

/-- The while loop of allocateUEIP: starting at candidate octet n, return the
first octet absent from the assigned list, scanning while the candidate is at
most 14. The fuel argument makes the loop structural; allocFind supplies fuel
15 - n, which exactly covers the loop (each iteration increments the candidate
and the guard requires it to be at most 14). -/
def allocFindAux (assigned : List AssignedIP) : Nat → Nat → Option Nat
  | 0, _ => none
  | fuel + 1, n =>
    if n ≤ 14 then
      if assigned.any (fun a => a.ip == n) then allocFindAux assigned fuel (n + 1)
      else some n
    else none

/-- Scan of the bounded address range performed by allocateUEIP. -/
def allocFind (assigned : List AssignedIP) (n : Nat) : Option Nat :=
  allocFindAux assigned (15 - n) n

/-- Pool-level core of SessionManager.allocateUEIP: scan from the next-free
counter, record the first free octet for the requesting terminal and advance
the counter past it; on exhaustion return the fallback octet 2 with the pool
unchanged (the source then returns the constant 10.0.0.2 without recording
anything). -/
def allocPool (t : Tun0) (ueId ueName : String) : Nat × Tun0 :=
  match allocFind (poolIPs t) (effNext t) with
  | some k =>
    (k, { t with
            assignedIPs := some (poolIPs t ++ [⟨ueId, ueName, k⟩]),
            nextAvailableIP := some (k + 1) })
  | none => (2, t)

/-- The persisted PDU-session record written onto a terminal node's
configuration on successful establishment. -/
structure PduSessionCfg where
  sessionId : Nat
  upfId : String
  assignedIP : Nat
  status : String
  deriving DecidableEq, Repr

/-- The synthesized tunnel sub-interface written onto a terminal node's
configuration on successful establishment. -/
structure TunInterface where
  name : String
  ipAddress : Nat
  netmask : String
  destination : Nat
  gateway : String
  mtu : Nat
  flags : String
  deriving DecidableEq, Repr

/-- Configuration record of a node. Only fields read or written by the
modelled operations are kept. -/
structure NFConfig where
  ipAddress : Option String
  subscriberImsi : Option String
  tun0Interface : Option Tun0
  pduSession : Option PduSessionCfg
  pduSessionState : Option SessionState
  tunInterface : Option TunInterface
  deriving DecidableEq, Repr

/-- A network-function node of the topology. -/
structure NF where
  id : String
  name : String
  type : String
  status : String
  position : ℚ × ℚ
  config : NFConfig
  deriving DecidableEq, Repr

/-- A point-to-point link between two nodes. -/
structure Conn where
  sourceId : String
  targetId : String
  deriving DecidableEq, Repr

/-- A shared bus. -/
structure Bus where
  id : String
  orientation : String
  position : ℚ × ℚ
  deriving DecidableEq, Repr

/-- An attachment of a node to a bus. -/
structure BusConn where
  nfId : String
  busId : String
  deriving DecidableEq, Repr

/-- The topology store state: nodes, links, buses and bus attachments. -/
structure Store where
  nodes : List NF
  connections : List Conn
  busConnections : List BusConn
  buses : List Bus
  deriving DecidableEq, Repr

/-- Modelled from the spec: the Topology Store (window.dataStore) is not among
the given sources; per the spec it is pure data with query operations.
getNFById returns the node carrying the given identifier. -/
def getNFById (s : Store) (id : String) : Option NF :=
  s.nodes.find? (fun nf => nf.id == id)

/-- Modelled from the spec: the full node list of the store. -/
def getAllNFs (s : Store) : List NF := s.nodes

/-- Modelled from the spec: the links one of whose endpoints is the node. -/
def getConnectionsForNF (s : Store) (id : String) : List Conn :=
  s.connections.filter (fun c => c.sourceId == id || c.targetId == id)

/-- Modelled from the spec: the bus attachments of the node. -/
def getBusConnectionsForNF (s : Store) (id : String) : List BusConn :=
  s.busConnections.filter (fun bc => bc.nfId == id)

/-- Modelled from the spec: the bus carrying the given identifier. -/
def getBusById (s : Store) (id : String) : Option Bus :=
  s.buses.find? (fun b => b.id == id)

/-- Modelled from the spec: replace the stored node carrying the given
identifier by the supplied node. -/
def updateNF (s : Store) (id : String) (nf : NF) : Store :=
  { s with nodes := s.nodes.map (fun n => if n.id == id then nf else n) }

/-- Whether the node with this identifier exists and is terminal (UE) typed. -/
def isUETyped (s : Store) (id : String) : Bool :=
  match getNFById s id with
  | some nf => nf.type == "UE"
  | none => false

/-- Number of UE-typed nodes among an argument pair; the recursion measure of
the reachability check. -/
def ueCount (s : Store) (a b : String) : Nat :=
  (if isUETyped s a then 1 else 0) + (if isUETyped s b then 1 else 0)

/-- SessionManager.areNFsConnected with an explicit recursion fuel. The source
recursion always terminates because every recursive call passes a gNB-typed
first argument and keeps or drops the UE-typed argument, so the number of
UE-typed arguments strictly decreases; fuel 3 therefore suffices, and the fuel
is irrelevant beyond that bound (areNFsConnectedAux_stable below). Note that
the gNB-bridge scan iterates the connections of the FIRST argument (the source
assigns ueConns from the connections of nfId1), and picks as bridge candidate
the link's target when the link's source equals the UE id and the link's
source otherwise, exactly as the source does. -/
def areNFsConnectedAux (s : Store) : Nat → String → String → Bool
  | 0, _, _ => false
  | fuel + 1, nfId1, nfId2 =>
    let connections := getConnectionsForNF s nfId1
    if connections.any (fun conn => conn.sourceId == nfId2 || conn.targetId == nfId2) then
      true
    else if (getBusConnectionsForNF s nfId1).any (fun bc1 =>
        (getBusConnectionsForNF s nfId2).any (fun bc2 => bc1.busId == bc2.busId)) then
      true
    else if isUETyped s nfId1 || isUETyped s nfId2 then
      let ueId := if isUETyped s nfId1 then nfId1 else nfId2
      let otherId := if isUETyped s nfId1 then nfId2 else nfId1
      connections.any (fun conn =>
        let gnbId := if conn.sourceId == ueId then conn.targetId else conn.sourceId
        (match getNFById s gnbId with
         | some gnb => gnb.type == "gNB"
         | none => false)
        && areNFsConnectedAux s fuel gnbId otherId)
    else false

/-- SessionManager.areNFsConnected: directly linked, sharing a bus, or bridged
through a gNB when a UE is involved. -/
def areNFsConnected (s : Store) (nfId1 nfId2 : String) : Bool :=
  areNFsConnectedAux s 3 nfId1 nfId2

/-- Split a character list at every dot, the character-level equivalent of the
split on the dot string used by the source (structural, so that concrete
instances evaluate). -/
def splitDot : List Char → List (List Char)
  | [] => [[]]
  | c :: rest =>
    let r := splitDot rest
    if c = '.' then [] :: r
    else
      match r with
      | [] => [[c]]
      | h :: t => (c :: h) :: t

/-- SessionManager.getNetworkFromIP: the first three octets of an address, or
the empty string for a missing, empty or malformed address. -/
def getNetworkFromIP (ip : Option String) : String :=
  match ip with
  | none => ""
  | some s =>
    if s = "" then ""
    else
      let parts := splitDot s.data
      if parts.length = 4 then
        String.mk (parts.getD 0 []) ++ "." ++ String.mk (parts.getD 1 []) ++ "." ++
          String.mk (parts.getD 2 [])
      else ""

/-- The set of nodes identified by a successful validation. -/
structure NFSet where
  ue : NF
  amf : NF
  smf : NF
  upf : NF
  deriving DecidableEq, Repr

/-- Result shape of validatePrerequisites, mirroring the returned object. -/
structure ValidationResult where
  valid : Bool
  error : Option String
  nfs : Option NFSet
  deriving DecidableEq, Repr

/-- An invalid validation result with its reason string. -/
def invalidRes (e : String) : ValidationResult := ⟨false, some e, none⟩

/-- Predicate selecting a stable node of the given type in the given subnet,
as used by the find calls of validatePrerequisites. -/
def nfMatch (ty subnet : String) (nf : NF) : Bool :=
  nf.type == ty && nf.status == "stable" && getNetworkFromIP nf.config.ipAddress == subnet

/-- SessionManager.validatePrerequisites: the ordered prerequisite clauses for
session operations on a terminal, each failing clause aborting with its
specific reason string. -/
def validatePrerequisites (s : Store) (ueId : String) : ValidationResult :=
  match getNFById s ueId with
  | none => invalidRes "UE not found"
  | some ue =>
    if ue.type ≠ "UE" then invalidRes "UE not found"
    else if ¬ jsTruthyStr ue.config.subscriberImsi then
      invalidRes "UE is not registered (no IMSI configured)"
    else
      let ueNetwork := getNetworkFromIP ue.config.ipAddress
      match (getAllNFs s).find? (nfMatch "AMF" ueNetwork) with
      | none => invalidRes "No stable AMF found in same subnet"
      | some amf =>
        if ¬ areNFsConnected s ue.id amf.id then
          invalidRes "UE is not connected to AMF (directly or via gNB)"
        else
          match (getAllNFs s).find? (nfMatch "SMF" ueNetwork) with
          | none => invalidRes "No stable SMF found in same subnet"
          | some smf =>
            match (getAllNFs s).find? (nfMatch "UPF" ueNetwork) with
            | none => invalidRes "No stable UPF found in same subnet"
            | some upf =>
              if upf.config.tun0Interface.isNone then
                invalidRes "UPF does not have tun0 interface configured"
              else ⟨true, none, some ⟨ue, amf, smf, upf⟩⟩

/-- The per-terminal session record held in SessionManager.sessions.
The creation timestamp and the message log are omitted. -/
structure Session where
  state : SessionState
  pduSessionId : Option Nat
  assignedIP : Option Nat
  tunnelId : Option String
  upfId : Option String
  deriving DecidableEq, Repr

/-- The fresh session record created by getSession for an unknown terminal. -/
def defaultSession : Session := ⟨.IDLE, none, none, none, none⟩

/-- The SessionManager.sessions map, as an association list. -/
def Sessions := List (String × Session)
deriving instance DecidableEq, Repr for Sessions

/-- SessionManager.getSession: return the session for the terminal, creating
and storing a fresh IDLE record when none exists yet. -/
def getSession (m : Sessions) (ueId : String) : Session × Sessions :=
  match List.find? (fun p => p.1 == ueId) m with
  | some p => (p.2, m)
  | none => (defaultSession, List.append m [(ueId, defaultSession)])

/-- Write the (existing) session entry of the terminal; field writes on the
session object fetched by getSession are visible in the map at once in the
source, which this write-through models. -/
def setSession (m : Sessions) (ueId : String) (sess : Session) : Sessions :=
  List.map (fun p => if p.1 == ueId then (p.1, sess) else p) m

/-- SessionManager.getSessionState. -/
def getSessionState (m : Sessions) (ueId : String) : SessionState :=
  (getSession m ueId).1.state

/-- First maximal run of digits of a list of characters, empty if the list
starts with a non-digit. -/
def digitsFrom : List Char → List Char
  | [] => []
  | c :: rest => if c.isDigit then c :: digitsFrom rest else []

/-- First maximal run of digits anywhere in a list of characters. -/
def firstDigitsAux : List Char → List Char
  | [] => []
  | c :: rest => if c.isDigit then c :: digitsFrom rest else firstDigitsAux rest

/-- The expression ue.name.match of a digit run, defaulted to the string 1:
the numeric suffix used for the synthesized tunnel interface name. -/
def firstDigitRun (s : String) : String :=
  jsOrStr (some (String.mk (firstDigitsAux s.data))) "1"

/-- SessionManager.allocateUEIP on the node level: read the gateway pool from
the UPF node, allocate, and return the allocated final octet together with the
UPF node carrying the updated pool (unchanged when tun0 is missing or the scan
exhausts the range; the source returns the fallback 10.0.0.2 in both cases). -/
def allocateUEIP (upf ue : NF) : Nat × NF :=
  match upf.config.tun0Interface with
  | none => (2, upf)
  | some t =>
    let r := allocPool t ue.id ue.name
    (r.1, { upf with config := { upf.config with tun0Interface := some r.2 } })

/-- The awaited establishment exchanges at which an injected fault can throw:
the six steps of the source, where step 3 has two awaited phases (the N4
request before the allocation and the N4 response after it) and step 4 is the
synchronous storing of the N4 response, which cannot throw. -/
inductive EstStep where
  | step1
  | step2
  | step3req
  | step3resp
  | step5
  | step6
  deriving DecidableEq, Repr

/-- SessionManager.establishPDUSession. The randomly generated session id and
tunnel id are passed as parameters sid and tid; fault names the awaited
exchange that throws, if any. Returns the updated store, the updated session
map and the success flag. The catch block of the source only forces the
session state back to IDLE: every other session field keeps the value it had
when the fault hit, and a pool allocation already performed stays in the
store. -/
def establishPDUSession (s : Store) (m : Sessions) (ueId : String)
    (sid : Nat) (tid : String) (fault : Option EstStep) : Store × Sessions × Bool :=
  let g := getSession m ueId
  let session0 := g.1
  let m0 := g.2
  if session0.state = .ACTIVE then (s, m0, true)
  else if session0.state = .ESTABLISHING then (s, m0, false)
  else
    let validation := validatePrerequisites s ueId
    if validation.valid = false then (s, m0, false)
    else
      match validation.nfs with
      | none => (s, m0, false)
      | some nfs =>
        let ue := nfs.ue
        let upf := nfs.upf
        let m1 := setSession m0 ueId { session0 with state := .ESTABLISHING }
        let session1 : Session := { session0 with state := .ESTABLISHING, pduSessionId := some sid }
        if fault = some .step1 ∨ fault = some .step2 ∨ fault = some .step3req then
          (s, setSession m1 ueId { session1 with state := .IDLE }, false)
        else
          let ar := allocateUEIP upf ue
          let ip := ar.1
          let upf1 := ar.2
          let s1 := updateNF s upf.id upf1
          if fault = some .step3resp then
            (s1, setSession m1 ueId { session1 with state := .IDLE }, false)
          else
            let session2 : Session :=
              { session1 with assignedIP := some ip, tunnelId := some tid, upfId := some upf.id }
            if fault = some .step5 ∨ fault = some .step6 then
              (s1, setSession m1 ueId { session2 with state := .IDLE }, false)
            else
              let ueNum := firstDigitRun ue.name
              let ue1 : NF := { ue with config :=
                { ue.config with
                    pduSession := some ⟨sid, upf.id, ip, "established"⟩,
                    pduSessionState := some .ACTIVE,
                    tunInterface := some
                      ⟨"tun_ue" ++ ueNum, ip, "255.255.255.0", ip,
                       jsOrStr (upf1.config.tun0Interface.bind Tun0.gatewayIP) "10.0.0.1",
                       1500, "UP,POINTOPOINT,RUNNING,NOARP,MULTICAST"⟩ } }
              let s2 := updateNF s1 ueId ue1
              (s2, setSession m1 ueId { session2 with state := .ACTIVE }, true)

/-- SessionManager.cleanupSession: free the terminal's address from the UPF
pool mapping if one is recorded, clear the terminal's PDU-session and tunnel
configuration fields, and reset the session record to RELEASED with all fields
null. -/
def cleanupSession (s : Store) (m : Sessions) (ueId : String) : Store × Sessions :=
  let g := getSession m ueId
  let session := g.1
  let m1 := g.2
  let s1 :=
    match session.upfId, session.assignedIP with
    | some upfId, some _ip =>
      (match getNFById s upfId with
       | some upf =>
         (match upf.config.tun0Interface with
          | some t =>
            (match t.assignedIPs with
             | some l =>
               updateNF s upfId
                 { upf with config := { upf.config with tun0Interface :=
                     (some { t with assignedIPs := some (l.filter (fun a => a.ueId != ueId)) }) } }
             | none => s)
          | none => s)
       | none => s)
    | _, _ => s
  let s2 :=
    match getNFById s ueId with
    | some u =>
      updateNF s1 ueId
        { u with config := { u.config with
            pduSession := none, tunInterface := none, pduSessionState := some .RELEASED } }
    | none => s1
  (s2, setSession m1 ueId ⟨.RELEASED, none, none, none, none⟩)

/-- SessionManager.releasePDUSession. The five release exchanges mutate no
modelled state, so the injected fault only selects the catch path (cleanup
still runs, the call returns failure). When prerequisites no longer validate
but the terminal node exists, the source skips the five exchanges, cleans up
locally and returns success; when the terminal node itself is gone it returns
failure before any cleanup. -/
def releasePDUSession (s : Store) (m : Sessions) (ueId : String)
    (fault : Option (Fin 5)) : Store × Sessions × Bool :=
  let g := getSession m ueId
  let session0 := g.1
  let m1 := g.2
  if session0.state ≠ .ACTIVE then (s, m1, false)
  else
    match getNFById s ueId with
    | none => (s, m1, false)
    | some _ue =>
      let validation := validatePrerequisites s ueId
      if validation.valid = false then
        let c := cleanupSession s m1 ueId
        (c.1, c.2, true)
      else
        let m2 := setSession m1 ueId { session0 with state := .RELEASING }
        let c := cleanupSession s m2 ueId
        (c.1, c.2, fault.isNone)

/-- A 2-D point; animation coordinates are rationals (the source uses JS
numbers only through addition, subtraction, multiplication and comparison
here, which the rationals model exactly). -/
def Point := ℚ × ℚ
deriving instance DecidableEq, Repr for Point

/-- PacketAnimator.defaultSpeed, the per-frame progress increment 0.012. -/
def defaultSpeed : ℚ := 12 / 1000

/-- PacketAnimator.getNFBusConnectionPoint: the projection of a node onto a
bus axis. -/
def getNFBusConnectionPoint (nf : NF) (bus : Bus) : Point :=
  if bus.orientation == "horizontal" then (nf.position.1, bus.position.2)
  else (bus.position.1, nf.position.2)

/-- The double loop of calculatePath searching a bus shared by source and
target: for each source attachment in order, the inner loop stops at the first
target attachment on the same bus; if the bus object itself is missing from
the store the outer loop moves on to the next source attachment. -/
def findCommonBus (s : Store) : List BusConn → List BusConn → Option Bus
  | [], _ => none
  | sbc :: rest, tbcs =>
    match tbcs.find? (fun tbc => tbc.busId == sbc.busId) with
    | some _ =>
      (match getBusById s sbc.busId with
       | some bus => some bus
       | none => findCommonBus s rest tbcs)
    | none => findCommonBus s rest tbcs

/-- PacketAnimator.calculatePath: source position, then (when a shared bus
exists) the two bus projections with an extra waypoint sliding along the bus
when the projections differ by more than 10 pixels on the bus axis, then the
target position. The result always starts at the source position and ends at
the target position, so it has at least two points. -/
def calculatePath (s : Store) (source target : NF) : List Point :=
  let sourceBusConns := getBusConnectionsForNF s source.id
  let targetBusConns := getBusConnectionsForNF s target.id
  match findCommonBus s sourceBusConns targetBusConns with
  | some bus =>
    let sbp := getNFBusConnectionPoint source bus
    let tbp := getNFBusConnectionPoint target bus
    let mid : List Point :=
      if bus.orientation == "horizontal" then
        if 10 < |sbp.1 - tbp.1| then [(tbp.1, sbp.2)] else []
      else
        if 10 < |sbp.2 - tbp.2| then [(sbp.1, tbp.2)] else []
    source.position :: sbp :: (mid ++ [tbp, target.position])
  | none => [source.position, target.position]

/-- An in-flight message token. The completion continuation is identified by
the token id: a frame reports the ids whose continuations it invokes.
Presentational fields (color, labels, payload) are omitted. -/
structure Packet where
  id : Nat
  sourceId : String
  targetId : String
  path : List Point
  currentSegment : Nat
  segmentProgress : ℚ
  speed : ℚ
  currentX : ℚ
  currentY : ℚ
  progress : ℚ
  deriving DecidableEq, Repr

/-- The scheduler state of the PacketAnimator: live tokens, the id counter and
the isRunning flag of the animation loop. -/
structure AnimState where
  packets : List Packet
  packetCounter : Nat
  isRunning : Bool
  deriving DecidableEq, Repr

/-- Options of a sendPacket call; fields not affecting modelled behaviour
(interface label, direction, payload, message id) are omitted. -/
structure SendOptions where
  sourceId : String
  targetId : String
  speed : Option ℚ
  deriving DecidableEq, Repr

/-- JavaScript defaulting options.speed || defaultSpeed. -/
def jsOrSpeed : Option ℚ → ℚ
  | none => defaultSpeed
  | some v => if v = 0 then defaultSpeed else v

/-- PacketAnimator.sendPacket: when both endpoints resolve, append a fresh
token (progress zero, position at the path start) and ensure the animation
loop is running, returning false for a pending completion; when either
endpoint is missing, change nothing and return true (the promise resolves
immediately, no token is created, no error is raised). -/
def sendPacket (s : Store) (st : AnimState) (o : SendOptions) : AnimState × Bool :=
  match getNFById s o.sourceId, getNFById s o.targetId with
  | some source, some target =>
    let path := calculatePath s source target
    let start := path.headD (0, 0)
    let pkt : Packet :=
      { id := st.packetCounter + 1, sourceId := o.sourceId, targetId := o.targetId,
        path := path, currentSegment := 0, segmentProgress := 0,
        speed := jsOrSpeed o.speed, currentX := start.1, currentY := start.2,
        progress := 0 }
    ({ packets := st.packets ++ [pkt], packetCounter := st.packetCounter + 1,
       isRunning := true }, false)
  | _, _ => (st, true)

/-- The carry-over while loop of updatePackets: while the segment progress has
reached 1 and segments remain, move the remainder into the next segment. The
fuel argument makes the loop structural; advancePacket supplies fuel
lenm1 - seg, which exactly covers the loop (each iteration increments the
segment index and the guard requires it to stay below lenm1). -/
def advanceSegments (lenm1 : Nat) : Nat → Nat → ℚ → Nat × ℚ
  | 0, seg, prog => (seg, prog)
  | fuel + 1, seg, prog =>
    if 1 ≤ prog ∧ seg < lenm1 then advanceSegments lenm1 fuel (seg + 1) (prog - 1)
    else (seg, prog)

/-- The per-token body of PacketAnimator.updatePackets: add the speed to the
segment progress, carry over completed segments, then either mark the token
complete (clamping progress to 1 and snapping to the final waypoint) or
interpolate the position inside the current segment. Returns the updated
token and whether it completed this tick. -/
def advancePacket (p : Packet) : Packet × Bool :=
  let lenm1 := p.path.length - 1
  let r := advanceSegments lenm1 (lenm1 - p.currentSegment) p.currentSegment
    (p.segmentProgress + p.speed)
  let seg := r.1
  let prog := r.2
  if lenm1 ≤ seg ∧ 1 ≤ prog then
    let last := p.path.getD (p.path.length - 1) (0, 0)
    ({ p with
       currentSegment := seg, segmentProgress := 1,
       currentX := last.1, currentY := last.2,
       progress := if 0 < lenm1 then ((seg : ℚ) + 1) / (lenm1 : ℚ) else 1 }, true)
  else
    let segStart := p.path.getD seg (0, 0)
    let segEnd := p.path.getD (min (seg + 1) (p.path.length - 1)) (0, 0)
    ({ p with
       currentSegment := seg, segmentProgress := prog,
       currentX := segStart.1 + (segEnd.1 - segStart.1) * prog,
       currentY := segStart.2 + (segEnd.2 - segStart.2) * prog,
       progress := if 0 < lenm1 then ((seg : ℚ) + prog) / (lenm1 : ℚ) else 1 }, false)

/-- PacketAnimator.updatePackets: advance every live token, remove the ones
that completed (preserving order) and report their ids in order — each
reported id has its completion continuation invoked exactly once by the
source's completion loop. -/
def updatePackets : List Packet → List Packet × List Nat
  | [] => ([], [])
  | p :: rest =>
    let a := advancePacket p
    let r := updatePackets rest
    if a.2 then (r.1, a.1.id :: r.2) else (a.1 :: r.1, r.2)

/-- One tick of the animation loop: when the loop is running, advance all
tokens, drop the completed ones and stop the loop if none remain; when the
loop is stopped (the source's animate returns at once), nothing happens. -/
def frameTick (st : AnimState) : AnimState × List Nat :=
  if st.isRunning then
    let r := updatePackets st.packets
    ({ st with packets := r.1, isRunning := !r.1.isEmpty }, r.2)
  else (st, [])

/-- Run n ticks, collecting all completed ids in order. -/
def runFrames (st : AnimState) : Nat → AnimState × List Nat
  | 0 => (st, [])
  | n + 1 =>
    let f := frameTick st
    let r := runFrames f.1 n
    (r.1, f.2 ++ r.2)

/-- Scheduler states reachable from the freshly constructed animator (no
tokens, counter zero, loop stopped) by submissions and ticks. -/
inductive ReachAnim : AnimState → Prop where
  | init : ReachAnim ⟨[], 0, false⟩
  | send (s : Store) (o : SendOptions) (st : AnimState) :
      ReachAnim st → ReachAnim (sendPacket s st o).1
  | tick (st : AnimState) : ReachAnim st → ReachAnim (frameTick st).1

/-- Number of path segments of a token. -/
def lenm1 (p : Packet) : Nat := p.path.length - 1

/-- Total progress of a token across all its segments. -/
def totalProg (p : Packet) : ℚ := (p.currentSegment : ℚ) + p.segmentProgress

/-- Internal well-formedness of a scheduler state: live token ids are distinct
and bounded by the counter, and every live token is strictly before its
completion point with its segment index in range. -/
def AnimInv (st : AnimState) : Prop :=
  (st.packets.map Packet.id).Nodup ∧
  (∀ p ∈ st.packets, p.id ≤ st.packetCounter) ∧
  (∀ p ∈ st.packets, p.currentSegment ≤ lenm1 p ∧ totalProg p < (lenm1 p : ℚ) + 1)

/-- An empty node configuration (all optional fields absent). -/
def nfConfigBase : NFConfig := ⟨none, none, none, none, none, none⟩

/-- The scenario gateway pool: range 10.0.0.2 to 10.0.0.14, gateway 10.0.0.1,
next-free counter 2, empty mapping. -/
def pool0 : Tun0 := ⟨some "10.0.0.1", some 2, some []⟩

/-- Scenario mobility anchor (AMF) at 192.168.1.11. -/
def amfNode : NF :=
  ⟨"amf-1", "AMF-1", "AMF", "stable", (274, 222),
   { nfConfigBase with ipAddress := some "192.168.1.11" }⟩

/-- Scenario session anchor (SMF) at 192.168.1.12. -/
def smfNode : NF :=
  ⟨"smf-1", "SMF-1", "SMF", "stable", (395, 228),
   { nfConfigBase with ipAddress := some "192.168.1.12" }⟩

/-- Scenario gateway (UPF) at 192.168.1.13 with the initialized pool. -/
def upfNode : NF :=
  ⟨"upf-1", "UPF-1", "UPF", "stable", (400, 341),
   { nfConfigBase with ipAddress := some "192.168.1.13", tun0Interface := some pool0 }⟩

/-- Scenario radio unit (gNB) at 192.168.1.21. -/
def gnbNode : NF :=
  ⟨"gnb-1", "gNB-1", "gNB", "stable", (160, 230),
   { nfConfigBase with ipAddress := some "192.168.1.21" }⟩

/-- Scenario terminal (UE) at 192.168.1.22 with subscriber credentials. -/
def ueNode : NF :=
  ⟨"ue-1", "UE-1", "UE", "stable", (80, 300),
   { nfConfigBase with
     ipAddress := some "192.168.1.22",
     subscriberImsi := some "001010000000001" }⟩

/-- The scenario topology of the spec: the terminal is linked to the radio
unit, which is linked to the mobility anchor; all five nodes share the subnet
192.168.1.0/24. -/
def scenarioStore : Store :=
  ⟨[amfNode, smfNode, upfNode, gnbNode, ueNode],
   [⟨"ue-1", "gnb-1"⟩, ⟨"gnb-1", "amf-1"⟩], [], []⟩

example : (validatePrerequisites scenarioStore "ue-1").valid = true := by decide
example : validatePrerequisites scenarioStore "ue-1" =
    ⟨true, none, some ⟨ueNode, amfNode, smfNode, upfNode⟩⟩ := by decide

example :
    (establishPDUSession scenarioStore [] "ue-1" 7 "gtp-1" none).2.2 = true := by decide
example :
    getSessionState (establishPDUSession scenarioStore [] "ue-1" 7 "gtp-1" none).2.1 "ue-1"
      = .ACTIVE := by decide
example :
    (getSession (establishPDUSession scenarioStore [] "ue-1" 7 "gtp-1" none).2.1 "ue-1").1.assignedIP
      = some 2 := by decide
example :
    (getNFById (establishPDUSession scenarioStore [] "ue-1" 7 "gtp-1" none).1 "upf-1").map
      (fun u => u.config.tun0Interface.map poolIPs)
      = some (some [⟨"ue-1", "UE-1", 2⟩]) := by decide
example :
    (getNFById (establishPDUSession scenarioStore [] "ue-1" 7 "gtp-1" none).1 "ue-1").map
      (fun u => u.config.tunInterface.map TunInterface.gateway) = some (some "10.0.0.1") := by decide
example :
    getSessionState (establishPDUSession scenarioStore [] "ue-1" 7 "gtp-1" (some .step5)).2.1 "ue-1"
      = .IDLE := by decide
example :
    (getNFById (establishPDUSession scenarioStore [] "ue-1" 7 "gtp-1" (some .step5)).1 "upf-1").map
      (fun u => u.config.tun0Interface.map poolIPs)
      = some (some [⟨"ue-1", "UE-1", 2⟩]) := by decide

def estObs : Store × Sessions × Bool := establishPDUSession scenarioStore [] "ue-1" 7 "gtp-1" none
def relObs : Store × Sessions × Bool := releasePDUSession estObs.1 estObs.2.1 "ue-1" none

example : relObs.2.2 = true := by decide
example : getSessionState relObs.2.1 "ue-1" = .RELEASED := by decide
example : (getNFById relObs.1 "upf-1").map (fun u => u.config.tun0Interface.map poolIPs)
    = some (some []) := by decide
example : (getNFById relObs.1 "ue-1").map (fun u => u.config.tunInterface) = some none := by decide
example : (getNFById relObs.1 "upf-1").map (fun u => u.config.tun0Interface.map effNext)
    = some (some 3) := by decide

def symStore : Store :=
  ⟨[⟨"ue-a", "UE-A", "UE", "stable", (0, 0), nfConfigBase⟩,
    ⟨"gnb-a", "GNB-A", "gNB", "stable", (0, 0), nfConfigBase⟩,
    ⟨"amf-a", "AMF-A", "AMF", "stable", (0, 0), nfConfigBase⟩],
   [⟨"amf-a", "gnb-a"⟩, ⟨"ue-a", "gnb-a"⟩], [], []⟩

example : areNFsConnected symStore "ue-a" "amf-a" = true := by decide
example : areNFsConnected symStore "amf-a" "ue-a" = false := by decide

def bothUEStore : Store :=
  ⟨[⟨"ue-a", "UE-A", "UE", "stable", (0, 0), nfConfigBase⟩,
    ⟨"ue-b", "UE-B", "UE", "stable", (0, 0), nfConfigBase⟩,
    ⟨"gnb-a", "GNB-A", "gNB", "stable", (0, 0), nfConfigBase⟩],
   [⟨"ue-a", "gnb-a"⟩, ⟨"gnb-a", "ue-b"⟩], [], []⟩

example : areNFsConnected bothUEStore "ue-a" "ue-b" = true := by decide

/-- Run a sequence of allocations against a pool, collecting the returned
octets in order. -/
def allocSeq : Tun0 → List (String × String) → List Nat × Tun0
  | t, [] => ([], t)
  | t, u :: rest =>
    let r := allocPool t u.1 u.2
    let r2 := allocSeq r.2 rest
    (r.1 :: r2.1, r2.2)

def ues14 : List (String × String) :=
  [("u1", "n1"), ("u2", "n2"), ("u3", "n3"), ("u4", "n4"), ("u5", "n5"), ("u6", "n6"),
   ("u7", "n7"), ("u8", "n8"), ("u9", "n9"), ("u10", "n10"), ("u11", "n11"),
   ("u12", "n12"), ("u13", "n13"), ("u14", "n14")]

example : (allocSeq pool0 ues14).1 = [2, 3, 4, 5, 6, 7, 8, 9, 10, 11, 12, 13, 14, 2] := by decide

def animStore : Store :=
  ⟨[⟨"n1", "N1", "AMF", "stable", (0, 0), nfConfigBase⟩,
    ⟨"n2", "N2", "SMF", "stable", (3, 4), nfConfigBase⟩], [], [], []⟩

def animSt0 : AnimState :=
  (sendPacket animStore ⟨[], 0, false⟩ ⟨"n1", "n2", some 1⟩).1

example : animSt0.isRunning = true := by decide
example : (animSt0.packets.map Packet.id) = [1] := by decide
example : animSt0.packets.all (fun p => decide (0 < p.speed)) = true := by decide
example : sendPacket animStore ⟨[], 0, false⟩ ⟨"nope", "n2", none⟩ = (⟨[], 0, false⟩, true) := by
  decide

/-- The pool operations available to later callers: an allocation or a
release-time free (the filter performed by cleanupSession). -/
inductive PoolOp where
  | alloc (uid un : String)
  | free (uid : String)

/-- Pool evolution under one operation. -/
def poolStep (t : Tun0) : PoolOp → Tun0
  | .alloc uid un => (allocPool t uid un).2
  | .free uid =>
    { t with assignedIPs := t.assignedIPs.map (fun l => l.filter (fun a => a.ueId != uid)) }

/-- Some allocation along the operation sequence returns the octet ip. -/
def traceReturns (ip : Nat) : Tun0 → List PoolOp → Prop
  | _, [] => False
  | t, op :: rest =>
    (match op with
     | .alloc uid un => (allocPool t uid un).1 = ip
     | .free _ => False) ∨ traceReturns ip (poolStep t op) rest

theorem allocFindAux_some_spec (assigned : List AssignedIP) :
    ∀ fuel n k, allocFindAux assigned fuel n = some k →
      n ≤ k ∧ k ≤ 14 ∧ assigned.any (fun a => a.ip == k) = false ∧
        ∀ j, n ≤ j → j < k → assigned.any (fun a => a.ip == j) = true := by
  intro fuel
  induction fuel with
  | zero => intro n k h; simp [allocFindAux] at h
  | succ fuel ih =>
    intro n k h
    simp only [allocFindAux] at h
    by_cases h14 : n ≤ 14
    · simp only [if_pos h14] at h
      by_cases htk : assigned.any (fun a => a.ip == n) = true
      · simp only [if_pos htk] at h
        obtain ⟨h1, h2, h3, h4⟩ := ih (n + 1) k h
        refine ⟨by omega, h2, h3, ?_⟩
        intro j hj1 hj2
        rcases Nat.eq_or_lt_of_le hj1 with rfl | hlt
        · exact htk
        · exact h4 j hlt hj2
      · simp only [if_neg htk, Option.some.injEq] at h
        subst h
        refine ⟨le_refl n, h14, by simpa using htk, ?_⟩
        intro j hj1 hj2
        omega
    · simp [if_neg h14] at h

theorem allocFindAux_none_spec (assigned : List AssignedIP) :
    ∀ fuel n, 15 - n ≤ fuel → allocFindAux assigned fuel n = none →
      ∀ j, n ≤ j → j ≤ 14 → assigned.any (fun a => a.ip == j) = true := by
  intro fuel
  induction fuel with
  | zero => intro n hf _ j hj1 hj2; omega
  | succ fuel ih =>
    intro n hf h j hj1 hj2
    simp only [allocFindAux] at h
    by_cases h14 : n ≤ 14
    · simp only [if_pos h14] at h
      by_cases htk : assigned.any (fun a => a.ip == n) = true
      · simp only [if_pos htk] at h
        rcases Nat.eq_or_lt_of_le hj1 with rfl | hlt
        · exact htk
        · exact ih (n + 1) (by omega) h j hlt hj2
      · rw [if_neg htk] at h
        exact Option.noConfusion h
    · omega

theorem allocFindAux_finds (assigned : List AssignedIP) :
    ∀ fuel n k, 15 - n ≤ fuel → n ≤ k → k ≤ 14 →
      assigned.any (fun a => a.ip == k) = false →
      (∀ j, n ≤ j → j < k → assigned.any (fun a => a.ip == j) = true) →
      allocFindAux assigned fuel n = some k := by
  intro fuel
  induction fuel with
  | zero => intro n k hf h1 h2 _ _; omega
  | succ fuel ih =>
    intro n k hf h1 h2 hfree hmin
    have h14 : n ≤ 14 := le_trans h1 h2
    simp only [allocFindAux, if_pos h14]
    by_cases htk : assigned.any (fun a => a.ip == n) = true
    · have hnk : n < k := by
        rcases Nat.eq_or_lt_of_le h1 with rfl | hlt
        · rw [htk] at hfree; cases hfree
        · exact hlt
      rw [if_pos htk]
      exact ih (n + 1) k (by omega) hnk h2 hfree (fun j hj1 hj2 => hmin j (by omega) hj2)
    · have hkn : k = n := by
        by_contra hne
        have : n < k := by omega
        exact htk (hmin n (le_refl n) this)
      rw [if_neg htk, hkn]

theorem allocPool_found (t : Tun0) (uid un : String) (k : Nat)
    (hk : allocFind (poolIPs t) (effNext t) = some k) :
    (allocPool t uid un).1 = k ∧
    poolIPs (allocPool t uid un).2 = poolIPs t ++ [⟨uid, un, k⟩] ∧
    effNext (allocPool t uid un).2 = k + 1 := by
  unfold allocPool
  rw [hk]
  refine ⟨rfl, ?_, ?_⟩
  · simp [poolIPs]
  · simp [effNext, jsOrNat]

theorem allocPool_exhausted (t : Tun0) (uid un : String)
    (hk : allocFind (poolIPs t) (effNext t) = none) :
    allocPool t uid un = (2, t) := by
  simp [allocPool, hk]

theorem allocPool_next_mono (t : Tun0) (uid un : String) :
    effNext t ≤ effNext (allocPool t uid un).2 := by
  rcases hk : allocFind (poolIPs t) (effNext t) with _ | k
  · rw [allocPool_exhausted t uid un hk]
  · obtain ⟨_, _, h3⟩ := allocPool_found t uid un k hk
    have := (allocFindAux_some_spec (poolIPs t) (15 - effNext t) (effNext t) k hk).1
    omega

theorem allocPool_ret_cases (t : Tun0) (uid un : String) :
    (allocPool t uid un).1 = 2 ∨ effNext t ≤ (allocPool t uid un).1 := by
  rcases hk : allocFind (poolIPs t) (effNext t) with _ | k
  · rw [allocPool_exhausted t uid un hk]; left; rfl
  · obtain ⟨h1, _, _⟩ := allocPool_found t uid un k hk
    have := (allocFindAux_some_spec (poolIPs t) (15 - effNext t) (effNext t) k hk).1
    right; omega

theorem poolStep_next_mono (t : Tun0) (op : PoolOp) :
    effNext t ≤ effNext (poolStep t op) := by
  cases op with
  | alloc uid un => exact allocPool_next_mono t uid un
  | free uid =>
    cases h : t.assignedIPs <;> simp [poolStep, effNext, jsOrNat, h]

theorem traceReturns_not (ip : Nat) (h3 : 3 ≤ ip) :
    ∀ (ops : List PoolOp) (t : Tun0), ip < effNext t → ¬ traceReturns ip t ops := by
  intro ops
  induction ops with
  | nil => intro t _ h; exact h
  | cons op rest ih =>
    intro t hlt h
    rcases h with h | h
    · cases op with
      | alloc uid un =>
        rcases allocPool_ret_cases t uid un with h2 | h2
        · simp only [h2] at h; omega
        · simp only at h; omega
      | free uid => exact h
    · exact ih (poolStep t op) (lt_of_lt_of_le hlt (poolStep_next_mono t op)) h

theorem find_append_of_none {α : Type} (p : α → Bool) :
    ∀ (l1 l2 : List α), List.find? p l1 = none → List.find? p (l1 ++ l2) = List.find? p l2 := by
  intro l1 l2 h
  simp [List.find?_append, h]

theorem getSession_found (m : Sessions) (u : String) (p : String × Session)
    (h : List.find? (fun q => q.1 == u) m = some p) : getSession m u = (p.2, m) := by
  unfold getSession
  rw [h]

theorem getSession_missing (m : Sessions) (u : String)
    (h : List.find? (fun q => q.1 == u) m = none) :
    getSession m u = (defaultSession, List.append m [(u, defaultSession)]) := by
  unfold getSession
  rw [h]

theorem getSession_snd_haskey (m : Sessions) (u : String) :
    ∃ p, List.find? (fun q => q.1 == u) (getSession m u).2 = some p := by
  rcases h : List.find? (fun q => q.1 == u) m with _ | p
  · rw [getSession_missing m u h]
    refine ⟨(u, defaultSession), ?_⟩
    have : List.find? (fun q => q.1 == u) [(u, defaultSession)] = some (u, defaultSession) := by
      simp [List.find?]
    calc List.find? (fun q => q.1 == u) (List.append m [(u, defaultSession)])
        = List.find? (fun q => q.1 == u) [(u, defaultSession)] := find_append_of_none _ m _ h
      _ = some (u, defaultSession) := this
  · rw [getSession_found m u p h]
    exact ⟨p, h⟩

theorem setSession_find (u : String) (x : Session) :
    ∀ (m : Sessions) (p : String × Session), List.find? (fun q => q.1 == u) m = some p →
      List.find? (fun q => q.1 == u) (setSession m u x) = some (u, x) := by
  intro m
  induction m with
  | nil => intro p h; cases h
  | cons a rest ih =>
    intro p h
    rcases ha : (a.1 == u) with _ | _
    · simp only [List.find?_cons, ha] at h
      show List.find? _ (List.map _ (a :: rest)) = _
      simp only [List.map_cons, if_neg (by simp [ha] : ¬ (a.1 == u) = true)]
      simp only [List.find?_cons, ha]
      exact ih p h
    · show List.find? _ (List.map _ (a :: rest)) = _
      simp only [List.map_cons, if_pos ha]
      have hau : a.1 = u := by simpa using ha
      simp [List.find?_cons, hau]

theorem getSession_of_set (m : Sessions) (u : String) (x : Session)
    (h : ∃ p, List.find? (fun q => q.1 == u) m = some p) :
    getSession (setSession m u x) u = (x, setSession m u x) := by
  obtain ⟨p, hp⟩ := h
  exact getSession_found _ u (u, x) (setSession_find u x m p hp)

theorem find_update_list (i : String) (nf : NF) :
    ∀ (l : List NF), (∃ n ∈ l, n.id = i) → nf.id = i →
      List.find? (fun n => n.id == i) (l.map (fun n => if n.id == i then nf else n))
        = some nf := by
  intro l
  induction l with
  | nil => intro h _; simp at h
  | cons a rest ih =>
    intro hex hid
    rcases ha : (a.id == i) with _ | _
    · simp only [List.map_cons, if_neg (by simp [ha] : ¬ (a.id == i) = true)]
      simp only [List.find?_cons, ha]
      refine ih ?_ hid
      rcases hex with ⟨n, hn, hni⟩
      rcases List.mem_cons.mp hn with h1 | h1
      · subst h1; simp [hni] at ha
      · exact ⟨n, h1, hni⟩
    · simp only [List.map_cons, if_pos ha]
      simp [List.find?_cons, hid]

theorem getNFById_update_self (s : Store) (i : String) (nf : NF)
    (hex : ∃ n ∈ s.nodes, n.id = i) (hid : nf.id = i) :
    getNFById (updateNF s i nf) i = some nf :=
  find_update_list i nf s.nodes hex hid

theorem find_update_list_ne (i j : String) (nf : NF) (hji : j ≠ i) (hid : nf.id = i) :
    ∀ (l : List NF),
      List.find? (fun n => n.id == j) (l.map (fun n => if n.id == i then nf else n))
        = List.find? (fun n => n.id == j) l := by
  intro l
  induction l with
  | nil => rfl
  | cons a rest ih =>
    rcases ha : (a.id == i) with _ | _
    · simp only [List.map_cons, if_neg (by simp [ha] : ¬ (a.id == i) = true)]
      rcases haj : (a.id == j) with _ | _
      · simp only [List.find?_cons, haj]
        exact ih
      · simp [List.find?_cons, haj]
    · have hai : a.id = i := by simpa using ha
      simp only [List.map_cons, if_pos ha]
      have h1 : (nf.id == j) = false := by simp [hid]; exact fun h => hji h.symm
      have h2 : (a.id == j) = false := by simp [hai]; exact fun h => hji h.symm
      simp only [List.find?_cons, h1, h2]
      exact ih

theorem getNFById_update_ne (s : Store) (i j : String) (nf : NF)
    (hji : j ≠ i) (hid : nf.id = i) :
    getNFById (updateNF s i nf) j = getNFById s j :=
  find_update_list_ne i j nf hji hid s.nodes

theorem validate_of_missing (s : Store) (u : String) (h : getNFById s u = none) :
    validatePrerequisites s u = invalidRes "UE not found" := by
  simp [validatePrerequisites, h]

theorem validate_of_wrong_type (s : Store) (u : String) (ue : NF)
    (h : getNFById s u = some ue) (ht : ue.type ≠ "UE") :
    validatePrerequisites s u = invalidRes "UE not found" := by
  simp [validatePrerequisites, h, ht]

theorem validate_of_no_imsi (s : Store) (u : String) (ue : NF)
    (h : getNFById s u = some ue) (ht : ue.type = "UE")
    (hi : jsTruthyStr ue.config.subscriberImsi = false) :
    validatePrerequisites s u = invalidRes "UE is not registered (no IMSI configured)" := by
  simp [validatePrerequisites, h, ht, hi]

theorem validate_of_no_amf (s : Store) (u : String) (ue : NF)
    (h : getNFById s u = some ue) (ht : ue.type = "UE")
    (hi : jsTruthyStr ue.config.subscriberImsi = true)
    (hamf : (getAllNFs s).find? (nfMatch "AMF" (getNetworkFromIP ue.config.ipAddress)) = none) :
    validatePrerequisites s u = invalidRes "No stable AMF found in same subnet" := by
  simp [validatePrerequisites, h, ht, hi, hamf]

theorem validate_of_unreachable (s : Store) (u : String) (ue amf : NF)
    (h : getNFById s u = some ue) (ht : ue.type = "UE")
    (hi : jsTruthyStr ue.config.subscriberImsi = true)
    (hamf : (getAllNFs s).find? (nfMatch "AMF" (getNetworkFromIP ue.config.ipAddress)) = some amf)
    (hcon : areNFsConnected s ue.id amf.id = false) :
    validatePrerequisites s u = invalidRes "UE is not connected to AMF (directly or via gNB)" := by
  simp [validatePrerequisites, h, ht, hi, hamf, hcon]

theorem validate_of_no_smf (s : Store) (u : String) (ue amf : NF)
    (h : getNFById s u = some ue) (ht : ue.type = "UE")
    (hi : jsTruthyStr ue.config.subscriberImsi = true)
    (hamf : (getAllNFs s).find? (nfMatch "AMF" (getNetworkFromIP ue.config.ipAddress)) = some amf)
    (hcon : areNFsConnected s ue.id amf.id = true)
    (hsmf : (getAllNFs s).find? (nfMatch "SMF" (getNetworkFromIP ue.config.ipAddress)) = none) :
    validatePrerequisites s u = invalidRes "No stable SMF found in same subnet" := by
  simp [validatePrerequisites, h, ht, hi, hamf, hcon, hsmf]

theorem validate_of_no_upf (s : Store) (u : String) (ue amf smf : NF)
    (h : getNFById s u = some ue) (ht : ue.type = "UE")
    (hi : jsTruthyStr ue.config.subscriberImsi = true)
    (hamf : (getAllNFs s).find? (nfMatch "AMF" (getNetworkFromIP ue.config.ipAddress)) = some amf)
    (hcon : areNFsConnected s ue.id amf.id = true)
    (hsmf : (getAllNFs s).find? (nfMatch "SMF" (getNetworkFromIP ue.config.ipAddress)) = some smf)
    (hupf : (getAllNFs s).find? (nfMatch "UPF" (getNetworkFromIP ue.config.ipAddress)) = none) :
    validatePrerequisites s u = invalidRes "No stable UPF found in same subnet" := by
  simp [validatePrerequisites, h, ht, hi, hamf, hcon, hsmf, hupf]

theorem validate_of_no_tun0 (s : Store) (u : String) (ue amf smf upf : NF)
    (h : getNFById s u = some ue) (ht : ue.type = "UE")
    (hi : jsTruthyStr ue.config.subscriberImsi = true)
    (hamf : (getAllNFs s).find? (nfMatch "AMF" (getNetworkFromIP ue.config.ipAddress)) = some amf)
    (hcon : areNFsConnected s ue.id amf.id = true)
    (hsmf : (getAllNFs s).find? (nfMatch "SMF" (getNetworkFromIP ue.config.ipAddress)) = some smf)
    (hupf : (getAllNFs s).find? (nfMatch "UPF" (getNetworkFromIP ue.config.ipAddress)) = some upf)
    (htun : upf.config.tun0Interface = none) :
    validatePrerequisites s u = invalidRes "UPF does not have tun0 interface configured" := by
  simp [validatePrerequisites, h, ht, hi, hamf, hcon, hsmf, hupf, htun]

theorem validate_of_all (s : Store) (u : String) (ue amf smf upf : NF)
    (h : getNFById s u = some ue) (ht : ue.type = "UE")
    (hi : jsTruthyStr ue.config.subscriberImsi = true)
    (hamf : (getAllNFs s).find? (nfMatch "AMF" (getNetworkFromIP ue.config.ipAddress)) = some amf)
    (hcon : areNFsConnected s ue.id amf.id = true)
    (hsmf : (getAllNFs s).find? (nfMatch "SMF" (getNetworkFromIP ue.config.ipAddress)) = some smf)
    (hupf : (getAllNFs s).find? (nfMatch "UPF" (getNetworkFromIP ue.config.ipAddress)) = some upf)
    (htun : upf.config.tun0Interface.isNone = false) :
    validatePrerequisites s u = ⟨true, none, some ⟨ue, amf, smf, upf⟩⟩ := by
  simp [validatePrerequisites, h, ht, hi, hamf, hcon, hsmf, hupf, htun]

theorem validate_valid_shape (s : Store) (u : String)
    (h : (validatePrerequisites s u).valid = true) :
    ∃ ue amf smf upf : NF,
      validatePrerequisites s u = ⟨true, none, some ⟨ue, amf, smf, upf⟩⟩ ∧
      getNFById s u = some ue ∧ ue.type = "UE" ∧
      upf ∈ s.nodes ∧ upf.type = "UPF" ∧ upf.config.tun0Interface.isSome = true := by
  rcases hue : getNFById s u with _ | ue
  · rw [validate_of_missing s u hue] at h; simp [invalidRes] at h
  · by_cases ht : ue.type = "UE"
    · rcases hi : jsTruthyStr ue.config.subscriberImsi with _ | _
      · rw [validate_of_no_imsi s u ue hue ht hi] at h; simp [invalidRes] at h
      · rcases hamf : (getAllNFs s).find?
            (nfMatch "AMF" (getNetworkFromIP ue.config.ipAddress)) with _ | amf
        · rw [validate_of_no_amf s u ue hue ht hi hamf] at h; simp [invalidRes] at h
        · rcases hcon : areNFsConnected s ue.id amf.id with _ | _
          · rw [validate_of_unreachable s u ue amf hue ht hi hamf hcon] at h
            simp [invalidRes] at h
          · rcases hsmf : (getAllNFs s).find?
                (nfMatch "SMF" (getNetworkFromIP ue.config.ipAddress)) with _ | smf
            · rw [validate_of_no_smf s u ue amf hue ht hi hamf hcon hsmf] at h
              simp [invalidRes] at h
            · rcases hupf : (getAllNFs s).find?
                  (nfMatch "UPF" (getNetworkFromIP ue.config.ipAddress)) with _ | upf
              · rw [validate_of_no_upf s u ue amf smf hue ht hi hamf hcon hsmf hupf] at h
                simp [invalidRes] at h
              · rcases htun : upf.config.tun0Interface with _ | t0
                · rw [validate_of_no_tun0 s u ue amf smf upf hue ht hi hamf hcon hsmf
                    hupf htun] at h
                  simp [invalidRes] at h
                · refine ⟨ue, amf, smf, upf,
                    validate_of_all s u ue amf smf upf hue ht hi hamf hcon hsmf hupf
                      (by simp [htun]), rfl, ht, ?_, ?_, ?_⟩
                  · exact List.mem_of_find?_eq_some hupf
                  · have := List.find?_some hupf
                    simp only [nfMatch, Bool.and_eq_true, beq_iff_eq] at this
                    exact this.1.1
                  · simp [htun]
    · rw [validate_of_wrong_type s u ue hue ht] at h; simp [invalidRes] at h

theorem anyCongr {α : Type} {p q : α → Bool} :
    ∀ (l : List α), (∀ x ∈ l, p x = q x) → l.any p = l.any q := by
  intro l
  induction l with
  | nil => intro _; rfl
  | cons a rest ih =>
    intro h
    simp only [List.any_cons]
    rw [h a (List.mem_cons_self a rest), ih (fun x hx => h x (List.mem_cons_of_mem a hx))]

theorem isUETyped_gnb (s : Store) (gid : String) (g : NF)
    (hg : getNFById s gid = some g) (ht : g.type = "gNB") : isUETyped s gid = false := by
  simp [isUETyped, hg, ht]

theorem ueCount_bridge_lt (s : Store) (a b gid : String)
    (hnue : isUETyped s gid = false)
    (hue : isUETyped s a = true ∨ isUETyped s b = true) :
    ueCount s gid (if isUETyped s a then b else a) < ueCount s a b := by
  rcases hA : isUETyped s a with _ | _
  · rcases hue with hue | hue
    · rw [hA] at hue; cases hue
    · simp [ueCount, hnue, hA, hue]
  · rcases hB : isUETyped s b with _ | _ <;> simp [ueCount, hnue, hA, hB]

theorem areNFsConnectedAux_stable (s : Store) :
    ∀ (f g : Nat) (a b : String), ueCount s a b < f → ueCount s a b < g →
      areNFsConnectedAux s f a b = areNFsConnectedAux s g a b := by
  intro f
  induction f with
  | zero => intro g a b hf _; omega
  | succ f ih =>
    intro g a b hf hg
    cases g with
    | zero => omega
    | succ g =>
      simp only [areNFsConnectedAux]
      by_cases hdir : ((getConnectionsForNF s a).any fun conn =>
          conn.sourceId == b || conn.targetId == b) = true
      · rw [if_pos hdir, if_pos hdir]
      · rw [if_neg hdir, if_neg hdir]
        by_cases hbus : ((getBusConnectionsForNF s a).any fun bc1 =>
            (getBusConnectionsForNF s b).any fun bc2 => bc1.busId == bc2.busId) = true
        · rw [if_pos hbus, if_pos hbus]
        · rw [if_neg hbus, if_neg hbus]
          by_cases hue : (isUETyped s a || isUETyped s b) = true
          · rw [if_pos hue, if_pos hue]
            apply anyCongr
            intro conn _
            rcases hgn : getNFById s
                (if conn.sourceId == (if isUETyped s a then a else b) then conn.targetId
                 else conn.sourceId) with _ | gnb
            · simp
            · by_cases hty : gnb.type = "gNB"
              · have hnue := isUETyped_gnb s _ gnb hgn hty
                have hcnt := ueCount_bridge_lt s a b _ hnue (by simpa using hue)
                congr 1
                exact ih g _ _ (by omega) (by omega)
              · have : (gnb.type == "gNB") = false := by simp [hty]
                simp [this]
          · rw [if_neg hue, if_neg hue]

/-- A link of the first node's connection list reaching the second node:
exactly the first check of areNFsConnected. -/
def DirectLinked (s : Store) (a b : String) : Prop :=
  ∃ c ∈ getConnectionsForNF s a, c.sourceId = b ∨ c.targetId = b

/-- The two nodes share a bus: exactly the second check of areNFsConnected. -/
def SharesBus (s : Store) (a b : String) : Prop :=
  ∃ b1 ∈ getBusConnectionsForNF s a, ∃ b2 ∈ getBusConnectionsForNF s b, b1.busId = b2.busId

/-- The gNB-bridge clause as the source actually evaluates it: at least one of
the two nodes is UE-typed, and scanning the FIRST argument's links (even when
the UE-typed node is the second argument) some candidate — the link's target
end when the link's source end equals the UE id, the source end otherwise —
is a gNB node from which the recursion reaches the other node. -/
def GnbBridged (s : Store) (a b : String) : Prop :=
  (isUETyped s a = true ∨ isUETyped s b = true) ∧
  ∃ c ∈ getConnectionsForNF s a,
    (∃ g, getNFById s (if c.sourceId == (if isUETyped s a then a else b) then c.targetId
        else c.sourceId) = some g ∧ g.type = "gNB") ∧
    areNFsConnected s
      (if c.sourceId == (if isUETyped s a then a else b) then c.targetId else c.sourceId)
      (if isUETyped s a then b else a) = true

theorem ueCount_le_one (s : Store) (r o : String) (h : isUETyped s r = false) :
    ueCount s r o ≤ 1 := by
  rcases ho : isUETyped s o with _ | _ <;> simp [ueCount, h, ho]

theorem aux2_eq_connected (s : Store) (r o : String) (g : NF)
    (hg : getNFById s r = some g) (ht : g.type = "gNB") :
    areNFsConnectedAux s 2 r o = areNFsConnected s r o := by
  unfold areNFsConnected
  have h1 := ueCount_le_one s r o (isUETyped_gnb s r g hg ht)
  exact areNFsConnectedAux_stable s 2 3 r o (by omega) (by omega)

theorem areNFsConnected_unfold (s : Store) (a b : String) :
    areNFsConnected s a b =
      (if (getConnectionsForNF s a).any
          (fun conn => conn.sourceId == b || conn.targetId == b) then true
       else if (getBusConnectionsForNF s a).any (fun bc1 =>
           (getBusConnectionsForNF s b).any (fun bc2 => bc1.busId == bc2.busId)) then true
       else if isUETyped s a || isUETyped s b then
         (getConnectionsForNF s a).any (fun conn =>
           (match getNFById s (if conn.sourceId == (if isUETyped s a then a else b)
                then conn.targetId else conn.sourceId) with
            | some gnb => gnb.type == "gNB"
            | none => false)
           && areNFsConnectedAux s 2
                (if conn.sourceId == (if isUETyped s a then a else b) then conn.targetId
                 else conn.sourceId)
                (if isUETyped s a then b else a))
       else false) := rfl

theorem areNFsConnected_characterization (s : Store) (a b : String) :
    areNFsConnected s a b = true ↔
      DirectLinked s a b ∨ SharesBus s a b ∨ GnbBridged s a b := by
  rw [areNFsConnected_unfold]
  by_cases hdir : ((getConnectionsForNF s a).any fun conn =>
      conn.sourceId == b || conn.targetId == b) = true
  · rw [if_pos hdir]
    have hd : DirectLinked s a b := by
      simp only [List.any_eq_true, Bool.or_eq_true, beq_iff_eq] at hdir
      exact hdir
    simp [hd]
  · rw [if_neg hdir]
    have hnd : ¬ DirectLinked s a b := by
      intro hd
      apply hdir
      simp only [List.any_eq_true, Bool.or_eq_true, beq_iff_eq]
      exact hd
    by_cases hbus : ((getBusConnectionsForNF s a).any fun bc1 =>
        (getBusConnectionsForNF s b).any fun bc2 => bc1.busId == bc2.busId) = true
    · rw [if_pos hbus]
      have hb : SharesBus s a b := by
        simp only [List.any_eq_true, beq_iff_eq] at hbus
        exact hbus
      simp [hb]
    · rw [if_neg hbus]
      have hnb : ¬ SharesBus s a b := by
        intro hb
        apply hbus
        simp only [List.any_eq_true, beq_iff_eq]
        exact hb
      by_cases hue : (isUETyped s a || isUETyped s b) = true
      · rw [if_pos hue]
        constructor
        · intro h
          right; right
          refine ⟨by simpa using hue, ?_⟩
          rw [List.any_eq_true] at h
          obtain ⟨conn, hconn, hp⟩ := h
          rw [Bool.and_eq_true] at hp
          obtain ⟨h1, h2⟩ := hp
          rcases hg : getNFById s (if conn.sourceId == (if isUETyped s a then a else b)
              then conn.targetId else conn.sourceId) with _ | g
          · rw [hg] at h1; cases h1
          · rw [hg] at h1
            have ht : g.type = "gNB" := by simpa using h1
            refine ⟨conn, hconn, ⟨g, hg, ht⟩, ?_⟩
            rw [← aux2_eq_connected s _ _ g hg ht]
            exact h2
        · intro h
          rcases h with hd | hb | hbr
          · exact absurd hd hnd
          · exact absurd hb hnb
          · obtain ⟨_, c, hc, ⟨g, hg, hgt⟩, hrec⟩ := hbr
            rw [List.any_eq_true]
            refine ⟨c, hc, ?_⟩
            rw [Bool.and_eq_true]
            refine ⟨by rw [hg]; simp [hgt], ?_⟩
            rw [aux2_eq_connected s _ _ g hg hgt]
            exact hrec
      · rw [if_neg hue]
        constructor
        · intro h; cases h
        · intro h
          rcases h with hd | hb | hbr
          · exact absurd hd hnd
          · exact absurd hb hnb
          · exact absurd (by simpa using hbr.1 : (isUETyped s a || isUETyped s b) = true) hue

/-- Well-formedness of a store: links and bus attachments only reference
existing nodes (the spec requires node deletion to cascade-remove them). -/
def WfStore (s : Store) : Prop :=
  (∀ c ∈ s.connections,
    (∃ n ∈ s.nodes, n.id = c.sourceId) ∧ (∃ n ∈ s.nodes, n.id = c.targetId)) ∧
  (∀ bc ∈ s.busConnections, ∃ n ∈ s.nodes, n.id = bc.nfId)

theorem areNFsConnected_absent (s : Store) (a b : String) (wf : WfStore s)
    (ha : getNFById s a = none) (hb : getNFById s b = none) :
    areNFsConnected s a b = false := by
  have hall : ∀ n ∈ s.nodes, ¬ (n.id == a) = true := List.find?_eq_none.mp ha
  have hconn : getConnectionsForNF s a = [] := by
    rw [getConnectionsForNF, List.filter_eq_nil_iff]
    intro c hc
    simp only [Bool.or_eq_true, beq_iff_eq, not_or]
    constructor
    · intro h1
      obtain ⟨n, hn, hni⟩ := (wf.1 c hc).1
      exact hall n hn (by simp [hni, h1])
    · intro h1
      obtain ⟨n, hn, hni⟩ := (wf.1 c hc).2
      exact hall n hn (by simp [hni, h1])
  have hbusc : getBusConnectionsForNF s a = [] := by
    rw [getBusConnectionsForNF, List.filter_eq_nil_iff]
    intro bc hbc
    simp only [beq_iff_eq]
    intro h1
    obtain ⟨n, hn, hni⟩ := wf.2 bc hbc
    exact hall n hn (by simp [hni, h1])
  unfold areNFsConnected
  simp [areNFsConnectedAux, hconn, hbusc, isUETyped, ha, hb]

/-- Modelled from the spec (the wording of the reachability rules): a direct
link exists between the two nodes, in either storage direction. -/
def specDirect (s : Store) (a b : String) : Bool :=
  s.connections.any (fun c =>
    (c.sourceId == a && c.targetId == b) || (c.sourceId == b && c.targetId == a))

/-- Modelled from the spec: exactly one of the two nodes is terminal-typed. -/
def exactlyOneUE (s : Store) (a b : String) : Bool :=
  isUETyped s a != isUETyped s b

/-- Modelled from the spec (the wording of the reachability rules): the
claimed connectivity relation — a direct link between the two nodes, a shared
bus, or, when exactly one of the two is a terminal, a link from that terminal
to a radio-unit node r with the relation holding between r and the other node,
with one level of terminal-to-radio-unit indirection only (the fuel counts the
remaining indirections). -/
def specConnAux (s : Store) : Nat → String → String → Bool
  | 0, a, b =>
    specDirect s a b ||
      (getBusConnectionsForNF s a).any (fun b1 =>
        (getBusConnectionsForNF s b).any (fun b2 => b1.busId == b2.busId))
  | fuel + 1, a, b =>
    specDirect s a b ||
      (getBusConnectionsForNF s a).any (fun b1 =>
        (getBusConnectionsForNF s b).any (fun b2 => b1.busId == b2.busId)) ||
      (exactlyOneUE s a b &&
        (s.connections.any (fun c =>
          (c.sourceId == (if isUETyped s a then a else b) ||
           c.targetId == (if isUETyped s a then a else b)) &&
          (match getNFById s (if c.sourceId == (if isUETyped s a then a else b)
              then c.targetId else c.sourceId) with
           | some g => g.type == "gNB"
           | none => false) &&
          specConnAux s fuel (if c.sourceId == (if isUETyped s a then a else b)
              then c.targetId else c.sourceId)
            (if isUETyped s a then b else a))))

/-- Modelled from the spec: the claimed connectivity relation with its single
level of indirection. -/
def specAreConnected (s : Store) (a b : String) : Bool := specConnAux s 1 a b

theorem cleanupSession_sessions (s : Store) (m : Sessions) (ueId : String) :
    (cleanupSession s m ueId).2 =
      setSession (getSession m ueId).2 ueId ⟨.RELEASED, none, none, none, none⟩ := rfl

theorem cleanupSession_store (s : Store) (m : Sessions) (ueId w : String) (ip : Nat)
    (upf : NF) (t : Tun0) (l : List AssignedIP) (ue : NF)
    (hw : (getSession m ueId).1.upfId = some w)
    (hip : (getSession m ueId).1.assignedIP = some ip)
    (hupf : getNFById s w = some upf)
    (ht : upf.config.tun0Interface = some t)
    (hl : t.assignedIPs = some l)
    (hue : getNFById s ueId = some ue) :
    (cleanupSession s m ueId).1 =
      updateNF
        (updateNF s w
          { upf with
            config := { upf.config with
              tun0Interface := some { t with
                assignedIPs := some (l.filter (fun a => a.ueId != ueId)) } } })
        ueId
        { ue with
          config := { ue.config with
            pduSession := none, tunInterface := none,
            pduSessionState := some .RELEASED } } := by
  unfold cleanupSession
  simp only [hw, hip, hupf, ht, hl, hue]

theorem release_not_active (s : Store) (m : Sessions) (ueId : String) (f : Option (Fin 5))
    (h : (getSession m ueId).1.state ≠ .ACTIVE) :
    releasePDUSession s m ueId f = (s, (getSession m ueId).2, false) := by
  unfold releasePDUSession
  rw [if_pos h]

theorem release_no_node (s : Store) (m : Sessions) (ueId : String) (f : Option (Fin 5))
    (ha : (getSession m ueId).1.state = .ACTIVE) (hn : getNFById s ueId = none) :
    releasePDUSession s m ueId f = (s, (getSession m ueId).2, false) := by
  unfold releasePDUSession
  rw [if_neg (by simp [ha])]
  simp only [hn]

theorem release_invalid (s : Store) (m : Sessions) (ueId : String) (f : Option (Fin 5))
    (ue : NF)
    (ha : (getSession m ueId).1.state = .ACTIVE) (hn : getNFById s ueId = some ue)
    (hv : (validatePrerequisites s ueId).valid = false) :
    releasePDUSession s m ueId f =
      ((cleanupSession s (getSession m ueId).2 ueId).1,
       (cleanupSession s (getSession m ueId).2 ueId).2, true) := by
  unfold releasePDUSession
  rw [if_neg (by simp [ha])]
  simp only [hn, hv]
  simp

theorem release_valid (s : Store) (m : Sessions) (ueId : String) (f : Option (Fin 5))
    (ue : NF)
    (ha : (getSession m ueId).1.state = .ACTIVE) (hn : getNFById s ueId = some ue)
    (hv : (validatePrerequisites s ueId).valid = true) :
    releasePDUSession s m ueId f =
      ((cleanupSession s
          (setSession (getSession m ueId).2 ueId
            { (getSession m ueId).1 with state := .RELEASING }) ueId).1,
       (cleanupSession s
          (setSession (getSession m ueId).2 ueId
            { (getSession m ueId).1 with state := .RELEASING }) ueId).2,
       f.isNone) := by
  unfold releasePDUSession
  rw [if_neg (by simp [ha])]
  simp only [hn, hv]
  simp

theorem setSession_haskey (m : Sessions) (u : String) (x : Session)
    (h : ∃ p, List.find? (fun q => q.1 == u) m = some p) :
    ∃ p, List.find? (fun q => q.1 == u) (setSession m u x) = some p := by
  obtain ⟨p, hp⟩ := h
  exact ⟨(u, x), setSession_find u x m p hp⟩

theorem establish_fault_pre (s : Store) (m : Sessions) (ueId : String) (sid : Nat)
    (tid : String) (f : Option EstStep) (ue amf smf upf : NF)
    (hns : (getSession m ueId).1.state ≠ .ACTIVE)
    (hne : (getSession m ueId).1.state ≠ .ESTABLISHING)
    (hveq : validatePrerequisites s ueId = ⟨true, none, some ⟨ue, amf, smf, upf⟩⟩)
    (hf : f = some .step1 ∨ f = some .step2 ∨ f = some .step3req) :
    establishPDUSession s m ueId sid tid f =
      (s, setSession (setSession (getSession m ueId).2 ueId
            { (getSession m ueId).1 with state := .ESTABLISHING }) ueId
          { (getSession m ueId).1 with
            state := .IDLE, pduSessionId := some sid }, false) := by
  unfold establishPDUSession
  rw [if_neg hns, if_neg hne, hveq]
  rcases hf with rfl | rfl | rfl <;> simp

theorem establish_fault_alloc (s : Store) (m : Sessions) (ueId : String) (sid : Nat)
    (tid : String) (f : Option EstStep) (ue amf smf upf : NF)
    (hns : (getSession m ueId).1.state ≠ .ACTIVE)
    (hne : (getSession m ueId).1.state ≠ .ESTABLISHING)
    (hveq : validatePrerequisites s ueId = ⟨true, none, some ⟨ue, amf, smf, upf⟩⟩)
    (hf : f = some .step3resp) :
    establishPDUSession s m ueId sid tid f =
      (updateNF s upf.id (allocateUEIP upf ue).2,
       setSession (setSession (getSession m ueId).2 ueId
            { (getSession m ueId).1 with state := .ESTABLISHING }) ueId
          { (getSession m ueId).1 with
            state := .IDLE, pduSessionId := some sid }, false) := by
  unfold establishPDUSession
  rw [if_neg hns, if_neg hne, hveq]
  subst hf
  simp

theorem establish_fault_post (s : Store) (m : Sessions) (ueId : String) (sid : Nat)
    (tid : String) (f : Option EstStep) (ue amf smf upf : NF)
    (hns : (getSession m ueId).1.state ≠ .ACTIVE)
    (hne : (getSession m ueId).1.state ≠ .ESTABLISHING)
    (hveq : validatePrerequisites s ueId = ⟨true, none, some ⟨ue, amf, smf, upf⟩⟩)
    (hf : f = some .step5 ∨ f = some .step6) :
    establishPDUSession s m ueId sid tid f =
      (updateNF s upf.id (allocateUEIP upf ue).2,
       setSession (setSession (getSession m ueId).2 ueId
            { (getSession m ueId).1 with state := .ESTABLISHING }) ueId
          { (getSession m ueId).1 with
            state := .IDLE, pduSessionId := some sid,
            assignedIP := some (allocateUEIP upf ue).1, tunnelId := some tid,
            upfId := some upf.id }, false) := by
  unfold establishPDUSession
  rw [if_neg hns, if_neg hne, hveq]
  rcases hf with rfl | rfl <;> simp

theorem advanceSegments_sum (L : Nat) :
    ∀ (fuel seg : Nat) (prog : ℚ),
      ((advanceSegments L fuel seg prog).1 : ℚ) + (advanceSegments L fuel seg prog).2
        = (seg : ℚ) + prog := by
  intro fuel
  induction fuel with
  | zero => intro seg prog; simp [advanceSegments]
  | succ fuel ih =>
    intro seg prog
    simp only [advanceSegments]
    by_cases hc : 1 ≤ prog ∧ seg < L
    · rw [if_pos hc]
      have := ih (seg + 1) (prog - 1)
      push_cast at this ⊢
      linarith
    · rw [if_neg hc]

theorem advanceSegments_le (L : Nat) :
    ∀ (fuel seg : Nat) (prog : ℚ), seg ≤ L → (advanceSegments L fuel seg prog).1 ≤ L := by
  intro fuel
  induction fuel with
  | zero => intro seg prog h; simpa [advanceSegments] using h
  | succ fuel ih =>
    intro seg prog h
    simp only [advanceSegments]
    by_cases hc : 1 ≤ prog ∧ seg < L
    · rw [if_pos hc]
      exact ih (seg + 1) (prog - 1) (by omega)
    · rw [if_neg hc]
      exact h

theorem advanceSegments_post (L : Nat) :
    ∀ (fuel seg : Nat) (prog : ℚ), L - seg ≤ fuel →
      ¬ (1 ≤ (advanceSegments L fuel seg prog).2 ∧ (advanceSegments L fuel seg prog).1 < L) := by
  intro fuel
  induction fuel with
  | zero =>
    intro seg prog hf
    simp only [advanceSegments]
    rintro ⟨_, h2⟩
    omega
  | succ fuel ih =>
    intro seg prog hf
    simp only [advanceSegments]
    by_cases hc : 1 ≤ prog ∧ seg < L
    · rw [if_pos hc]
      exact ih (seg + 1) (prog - 1) (by omega)
    · rw [if_neg hc]
      exact hc

theorem lenm1_def (p : Packet) : lenm1 p = p.path.length - 1 := rfl

theorem advancePacket_fields (p : Packet) :
    (advancePacket p).1.id = p.id ∧ (advancePacket p).1.path = p.path ∧
      (advancePacket p).1.speed = p.speed := by
  unfold advancePacket
  by_cases hc : p.path.length - 1 ≤
        (advanceSegments (p.path.length - 1) (p.path.length - 1 - p.currentSegment)
          p.currentSegment (p.segmentProgress + p.speed)).1 ∧
      1 ≤ (advanceSegments (p.path.length - 1) (p.path.length - 1 - p.currentSegment)
          p.currentSegment (p.segmentProgress + p.speed)).2
  · rw [if_pos hc]
    exact ⟨rfl, rfl, rfl⟩
  · rw [if_neg hc]
    exact ⟨rfl, rfl, rfl⟩

theorem advancePacket_done_iff (p : Packet) (h : p.currentSegment ≤ lenm1 p) :
    (advancePacket p).2 = true ↔ (lenm1 p : ℚ) + 1 ≤ totalProg p + p.speed := by
  have hsum := advanceSegments_sum (p.path.length - 1)
    (p.path.length - 1 - p.currentSegment) p.currentSegment (p.segmentProgress + p.speed)
  have hle := advanceSegments_le (p.path.length - 1)
    (p.path.length - 1 - p.currentSegment) p.currentSegment (p.segmentProgress + p.speed)
    (by rw [lenm1_def] at h; exact h)
  have hpost := advanceSegments_post (p.path.length - 1)
    (p.path.length - 1 - p.currentSegment) p.currentSegment (p.segmentProgress + p.speed)
    (le_refl _)
  unfold advancePacket
  by_cases hc : p.path.length - 1 ≤
        (advanceSegments (p.path.length - 1) (p.path.length - 1 - p.currentSegment)
          p.currentSegment (p.segmentProgress + p.speed)).1 ∧
      1 ≤ (advanceSegments (p.path.length - 1) (p.path.length - 1 - p.currentSegment)
          p.currentSegment (p.segmentProgress + p.speed)).2
  · rw [if_pos hc]
    simp only [lenm1_def, totalProg]
    constructor
    · intro _
      have h1 : ((p.path.length - 1 : Nat) : ℚ) ≤
          ((advanceSegments (p.path.length - 1) (p.path.length - 1 - p.currentSegment)
            p.currentSegment (p.segmentProgress + p.speed)).1 : ℚ) := by
        exact_mod_cast hc.1
      linarith [hc.2, hsum]
    · intro _; trivial
  · rw [if_neg hc]
    simp only [lenm1_def, totalProg]
    constructor
    · intro hfalse; cases hfalse
    · intro hb
      exfalso
      rcases le_or_lt 1 (advanceSegments (p.path.length - 1)
          (p.path.length - 1 - p.currentSegment) p.currentSegment
          (p.segmentProgress + p.speed)).2 with h2 | h2
      · have h3 : ¬ ((advanceSegments (p.path.length - 1)
            (p.path.length - 1 - p.currentSegment) p.currentSegment
            (p.segmentProgress + p.speed)).1 < p.path.length - 1) := fun hlt => hpost ⟨h2, hlt⟩
        exact hc ⟨by omega, h2⟩
      · have h1 : ((advanceSegments (p.path.length - 1)
            (p.path.length - 1 - p.currentSegment) p.currentSegment
            (p.segmentProgress + p.speed)).1 : ℚ) ≤ ((p.path.length - 1 : Nat) : ℚ) := by
          exact_mod_cast hle
        linarith [hsum]

theorem advancePacket_not_done (p : Packet) (h : p.currentSegment ≤ lenm1 p)
    (hd : (advancePacket p).2 = false) :
    totalProg (advancePacket p).1 = totalProg p + p.speed ∧
    (advancePacket p).1.currentSegment ≤ lenm1 (advancePacket p).1 ∧
    totalProg (advancePacket p).1 < (lenm1 (advancePacket p).1 : ℚ) + 1 := by
  have hsum := advanceSegments_sum (p.path.length - 1)
    (p.path.length - 1 - p.currentSegment) p.currentSegment (p.segmentProgress + p.speed)
  have hle := advanceSegments_le (p.path.length - 1)
    (p.path.length - 1 - p.currentSegment) p.currentSegment (p.segmentProgress + p.speed)
    (by rw [lenm1_def] at h; exact h)
  have hpost := advanceSegments_post (p.path.length - 1)
    (p.path.length - 1 - p.currentSegment) p.currentSegment (p.segmentProgress + p.speed)
    (le_refl _)
  unfold advancePacket at hd ⊢
  by_cases hc : p.path.length - 1 ≤
        (advanceSegments (p.path.length - 1) (p.path.length - 1 - p.currentSegment)
          p.currentSegment (p.segmentProgress + p.speed)).1 ∧
      1 ≤ (advanceSegments (p.path.length - 1) (p.path.length - 1 - p.currentSegment)
          p.currentSegment (p.segmentProgress + p.speed)).2
  · rw [if_pos hc] at hd
    cases hd
  · rw [if_neg hc] at hd ⊢
    refine ⟨?_, ?_, ?_⟩
    · simp only [totalProg]
      rw [hsum]
      ring
    · simp only [lenm1_def]
      exact hle
    · simp only [totalProg, lenm1_def]
      rcases le_or_lt 1 (advanceSegments (p.path.length - 1)
          (p.path.length - 1 - p.currentSegment) p.currentSegment
          (p.segmentProgress + p.speed)).2 with h2 | h2
      · exfalso
        have h3 : ¬ ((advanceSegments (p.path.length - 1)
            (p.path.length - 1 - p.currentSegment) p.currentSegment
            (p.segmentProgress + p.speed)).1 < p.path.length - 1) := fun hlt => hpost ⟨h2, hlt⟩
        exact hc ⟨by omega, h2⟩
      · have h1 : ((advanceSegments (p.path.length - 1)
            (p.path.length - 1 - p.currentSegment) p.currentSegment
            (p.segmentProgress + p.speed)).1 : ℚ) ≤ ((p.path.length - 1 : Nat) : ℚ) := by
          exact_mod_cast hle
        linarith

theorem updatePackets_ids_count (a : Nat) :
    ∀ ps : List Packet,
      (updatePackets ps).2.count a + ((updatePackets ps).1.map Packet.id).count a
        = (ps.map Packet.id).count a := by
  intro ps
  induction ps with
  | nil => simp [updatePackets]
  | cons p rest ih =>
    have hid : (advancePacket p).1.id = p.id := (advancePacket_fields p).1
    simp only [updatePackets]
    by_cases hd : (advancePacket p).2 = true
    · rw [if_pos hd]
      simp only [List.map_cons, List.count_cons, hid]
      omega
    · rw [if_neg hd]
      simp only [List.map_cons, List.count_cons, hid]
      omega

theorem updatePackets_mem_done (p : Packet) :
    ∀ ps : List Packet, p ∈ ps → (advancePacket p).2 = true →
      p.id ∈ (updatePackets ps).2 := by
  intro ps
  induction ps with
  | nil => intro h _; cases h
  | cons q rest ih =>
    intro hmem hd
    simp only [updatePackets]
    rcases List.mem_cons.mp hmem with rfl | hmem2
    · rw [if_pos hd]
      show p.id ∈ (advancePacket p).1.id :: (updatePackets rest).2
      rw [(advancePacket_fields p).1]
      exact List.mem_cons_self _ _
    · by_cases hqd : (advancePacket q).2 = true
      · rw [if_pos hqd]
        exact List.mem_cons_of_mem _ (ih hmem2 hd)
      · rw [if_neg hqd]
        exact ih hmem2 hd

theorem updatePackets_mem_rem (p : Packet) :
    ∀ ps : List Packet, p ∈ ps → (advancePacket p).2 = false →
      (advancePacket p).1 ∈ (updatePackets ps).1 := by
  intro ps
  induction ps with
  | nil => intro h _; cases h
  | cons q rest ih =>
    intro hmem hd
    simp only [updatePackets]
    rcases List.mem_cons.mp hmem with rfl | hmem2
    · rw [if_neg (by simp [hd])]
      exact List.mem_cons_self _ _
    · by_cases hqd : (advancePacket q).2 = true
      · rw [if_pos hqd]
        exact ih hmem2 hd
      · rw [if_neg hqd]
        exact List.mem_cons_of_mem _ (ih hmem2 hd)

theorem updatePackets_rem_shape :
    ∀ (ps : List Packet) (q : Packet), q ∈ (updatePackets ps).1 →
      ∃ p ∈ ps, advancePacket p = (q, false) := by
  intro ps
  induction ps with
  | nil => intro q h; cases h
  | cons p rest ih =>
    intro q hq
    simp only [updatePackets] at hq
    by_cases hd : (advancePacket p).2 = true
    · rw [if_pos hd] at hq
      obtain ⟨r, hr, hre⟩ := ih q hq
      exact ⟨r, List.mem_cons_of_mem _ hr, hre⟩
    · rw [if_neg hd] at hq
      rcases List.mem_cons.mp hq with rfl | hq2
      · refine ⟨p, List.mem_cons_self _ _, ?_⟩
        have : (advancePacket p).2 = false := by simpa using hd
        exact Prod.ext rfl this
      · obtain ⟨r, hr, hre⟩ := ih q hq2
        exact ⟨r, List.mem_cons_of_mem _ hr, hre⟩

theorem updatePackets_ids_sublist :
    ∀ ps : List Packet,
      ((updatePackets ps).1.map Packet.id).Sublist (ps.map Packet.id) := by
  intro ps
  induction ps with
  | nil => simp [updatePackets]
  | cons p rest ih =>
    have hid : (advancePacket p).1.id = p.id := (advancePacket_fields p).1
    simp only [updatePackets]
    by_cases hd : (advancePacket p).2 = true
    · rw [if_pos hd]
      simp only [List.map_cons]
      exact ih.trans (List.sublist_cons_self _ _)
    · rw [if_neg hd]
      simp only [List.map_cons, hid]
      exact ih.cons₂ p.id

theorem updatePackets_done_sub :
    ∀ (ps : List Packet) (a : Nat), a ∈ (updatePackets ps).2 → a ∈ ps.map Packet.id := by
  intro ps
  induction ps with
  | nil => intro a h; cases h
  | cons p rest ih =>
    intro a ha
    have hid : (advancePacket p).1.id = p.id := (advancePacket_fields p).1
    simp only [updatePackets] at ha
    by_cases hd : (advancePacket p).2 = true
    · rw [if_pos hd] at ha
      rcases List.mem_cons.mp ha with rfl | ha2
      · simp [hid]
      · exact List.mem_cons_of_mem _ (ih a ha2)
    · rw [if_neg hd] at ha
      exact List.mem_cons_of_mem _ (ih a ha)

theorem frameTick_not_running (st : AnimState) (h : st.isRunning = false) :
    frameTick st = (st, []) := by
  unfold frameTick
  rw [if_neg (by simp [h])]

theorem frameTick_running (st : AnimState) (h : st.isRunning = true) :
    frameTick st =
      (⟨(updatePackets st.packets).1, st.packetCounter,
        !(updatePackets st.packets).1.isEmpty⟩, (updatePackets st.packets).2) := by
  unfold frameTick
  rw [if_pos h]

theorem runFrames_dead (i : Nat) :
    ∀ (n : Nat) (st : AnimState), i ∉ st.packets.map Packet.id →
      (runFrames st n).2.count i = 0 ∧
        i ∉ (runFrames st n).1.packets.map Packet.id := by
  intro n
  induction n with
  | zero =>
    intro st h
    exact ⟨rfl, h⟩
  | succ n ih =>
    intro st h
    simp only [runFrames]
    by_cases hr : st.isRunning = true
    · rw [frameTick_running st hr]
      have hdone : (updatePackets st.packets).2.count i = 0 := by
        rw [List.count_eq_zero]
        intro hmem
        exact h (updatePackets_done_sub st.packets i hmem)
      have hrem : i ∉ ((updatePackets st.packets).1.map Packet.id) := fun hmem =>
        h ((updatePackets_ids_sublist st.packets).mem hmem)
      have := ih ⟨(updatePackets st.packets).1, st.packetCounter,
        !(updatePackets st.packets).1.isEmpty⟩ hrem
      simp only [List.count_append, hdone, this.1]
      exact ⟨trivial, this.2⟩
    · rw [frameTick_not_running st (by simpa using hr)]
      have := ih st h
      simpa using this

/-- The running flag is set exactly when live tokens exist, for every state
reachable from the idle animator. -/
theorem reach_run_iff (st : AnimState) (h : ReachAnim st) :
    st.isRunning = true ↔ st.packets ≠ [] := by
  induction h with
  | init => simp
  | send s o st hst ih =>
    unfold sendPacket
    rcases h1 : getNFById s o.sourceId with _ | src
    · simpa using ih
    · rcases h2 : getNFById s o.targetId with _ | tgt
      · simpa using ih
      · simp
  | tick st hst ih =>
    by_cases hr : st.isRunning = true
    · rw [frameTick_running st hr]
      rcases hrem : (updatePackets st.packets).1 with _ | ⟨a, l⟩ <;> simp [hrem]
    · rw [frameTick_not_running st (by simpa using hr)]
      exact ih

theorem reach_inv (st : AnimState) (h : ReachAnim st) : AnimInv st := by
  induction h with
  | init => exact ⟨by simp, by simp, by simp⟩
  | send s o st hst ih =>
    obtain ⟨hnd, hbound, hpk⟩ := ih
    unfold sendPacket
    rcases h1 : getNFById s o.sourceId with _ | src
    · exact ⟨hnd, hbound, hpk⟩
    · rcases h2 : getNFById s o.targetId with _ | tgt
      · exact ⟨hnd, hbound, hpk⟩
      · refine ⟨?_, ?_, ?_⟩
        · simp only [List.map_append, List.map_cons, List.map_nil]
          rw [List.nodup_append]
          refine ⟨hnd, by simp, ?_⟩
          intro x hx hx2
          simp at hx2
          obtain ⟨p, hp, hpid⟩ := List.mem_map.mp hx
          have := hbound p hp
          omega
        · intro p hp
          rcases List.mem_append.mp hp with hp1 | hp1
          · have := hbound p hp1
            simp only []
            omega
          · simp at hp1
            subst hp1
            simp
        · intro p hp
          rcases List.mem_append.mp hp with hp1 | hp1
          · exact hpk p hp1
          · simp at hp1
            subst hp1
            constructor
            · simp [lenm1]
            · simp only [totalProg, lenm1]
              simp
              positivity
  | tick st hst ih =>
    obtain ⟨hnd, hbound, hpk⟩ := ih
    by_cases hr : st.isRunning = true
    · rw [frameTick_running st hr]
      refine ⟨?_, ?_, ?_⟩
      · exact hnd.sublist (updatePackets_ids_sublist st.packets)
      · intro q hq
        obtain ⟨p, hp, hpe⟩ := updatePackets_rem_shape st.packets q hq
        have hq1 : (advancePacket p).1 = q := by rw [hpe]
        have := hbound p hp
        rw [← hq1, (advancePacket_fields p).1]
        simpa using this
      · intro q hq
        obtain ⟨p, hp, hpe⟩ := updatePackets_rem_shape st.packets q hq
        have hq1 : (advancePacket p).1 = q := by rw [hpe]
        have hq2 : (advancePacket p).2 = false := by rw [hpe]
        obtain ⟨hs1, hs2⟩ := hpk p hp
        obtain ⟨_, h2, h3⟩ := advancePacket_not_done p hs1 hq2
        rw [← hq1]
        exact ⟨h2, h3⟩
    · rw [frameTick_not_running st (by simpa using hr)]
      exact ⟨hnd, hbound, hpk⟩

theorem completes_once (i : Nat) :
    ∀ (n : Nat) (st : AnimState) (p : Packet),
      (st.packets.map Packet.id).Nodup → st.isRunning = true → p ∈ st.packets →
      p.id = i → p.currentSegment ≤ lenm1 p → totalProg p < (lenm1 p : ℚ) + 1 →
      ((lenm1 p : ℚ) + 1) ≤ totalProg p + (n : ℚ) * p.speed →
      (runFrames st n).2.count i = 1 ∧
        i ∉ (runFrames st n).1.packets.map Packet.id := by
  intro n
  induction n with
  | zero =>
    intro st p _ _ _ _ _ hlt hbound
    exfalso
    simp only [Nat.cast_zero, zero_mul, add_zero] at hbound
    linarith
  | succ n ih =>
    intro st p hnd hrun hmem hpid hseg hlt hbound
    simp only [runFrames]
    rw [frameTick_running st hrun]
    have hmemid : i ∈ st.packets.map Packet.id := by
      rw [← hpid]
      exact List.mem_map_of_mem Packet.id hmem
    have hcount1 : (st.packets.map Packet.id).count i = 1 :=
      List.count_eq_one_of_mem hnd hmemid
    have hpart := updatePackets_ids_count i st.packets
    by_cases hd : (advancePacket p).2 = true
    · have hdone_mem : i ∈ (updatePackets st.packets).2 := by
        rw [← hpid]
        exact updatePackets_mem_done p st.packets hmem hd
      have hdone_pos : 0 < (updatePackets st.packets).2.count i :=
        List.count_pos_iff.mpr hdone_mem
      have hdone1 : (updatePackets st.packets).2.count i = 1 := by omega
      have hrem0 : ((updatePackets st.packets).1.map Packet.id).count i = 0 := by omega
      have hremnot : i ∉ (updatePackets st.packets).1.map Packet.id :=
        List.count_eq_zero.mp hrem0
      have hdead := runFrames_dead i n ⟨(updatePackets st.packets).1, st.packetCounter,
        !(updatePackets st.packets).1.isEmpty⟩ hremnot
      simp only [List.count_append, hdone1, hdead.1]
      exact ⟨trivial, hdead.2⟩
    · have hd2 : (advancePacket p).2 = false := by simpa using hd
      have hq := updatePackets_mem_rem p st.packets hmem hd2
      have hqid : (advancePacket p).1.id = i := by rw [(advancePacket_fields p).1, hpid]
      have hremmem : i ∈ (updatePackets st.packets).1.map Packet.id := by
        rw [← hqid]
        exact List.mem_map_of_mem Packet.id hq
      have hrem_pos : 0 < ((updatePackets st.packets).1.map Packet.id).count i :=
        List.count_pos_iff.mpr hremmem
      have hdone0 : (updatePackets st.packets).2.count i = 0 := by omega
      obtain ⟨ht1, ht2, ht3⟩ := advancePacket_not_done p hseg hd2
      have hpath : (advancePacket p).1.path = p.path := (advancePacket_fields p).2.1
      have hspeed : (advancePacket p).1.speed = p.speed := (advancePacket_fields p).2.2
      have hlen : lenm1 (advancePacket p).1 = lenm1 p := by simp [lenm1, hpath]
      have hnonempty : (updatePackets st.packets).1 ≠ [] := List.ne_nil_of_mem hq
      have hrun2 : (!(updatePackets st.packets).1.isEmpty) = true := by
        cases hrem : (updatePackets st.packets).1 with
        | nil => exact absurd hrem hnonempty
        | cons a l => rfl
      have hbound2 : ((lenm1 (advancePacket p).1 : ℚ) + 1) ≤
          totalProg (advancePacket p).1 + (n : ℚ) * (advancePacket p).1.speed := by
        rw [hlen, ht1, hspeed]
        push_cast at hbound
        linarith
      have happly := ih ⟨(updatePackets st.packets).1, st.packetCounter,
          !(updatePackets st.packets).1.isEmpty⟩ (advancePacket p).1
        (hnd.sublist (updatePackets_ids_sublist st.packets)) hrun2 hq hqid
        ht2 ht3 hbound2
      simp only [List.count_append, hdone0, happly.1]
      exact ⟨trivial, happly.2⟩

/-- The octet k is the first free address at or after the next-free counter. -/
def isFirstFree (t : Tun0) (k : Nat) : Prop :=
  effNext t ≤ k ∧ k ≤ 14 ∧ ipTaken t k = false ∧
    ∀ j < k, effNext t ≤ j → ipTaken t j = true

instance (t : Tun0) (k : Nat) : Decidable (isFirstFree t k) := by
  unfold isFirstFree
  infer_instance

theorem allocFind_iff (t : Tun0) (k : Nat) :
    allocFind (poolIPs t) (effNext t) = some k ↔ isFirstFree t k := by
  constructor
  · intro h
    obtain ⟨h1, h2, h3, h4⟩ := allocFindAux_some_spec (poolIPs t) (15 - effNext t)
      (effNext t) k h
    exact ⟨h1, h2, h3, fun j hj1 hj2 => h4 j hj2 hj1⟩
  · rintro ⟨h1, h2, h3, h4⟩
    exact allocFindAux_finds (poolIPs t) (15 - effNext t) (effNext t) k (le_refl _)
      h1 h2 h3 (fun j hj1 hj2 => h4 j hj2 hj1)

theorem getNFById_id (s : Store) (u : String) (nf : NF) (h : getNFById s u = some nf) :
    nf.id = u := by
  simpa using List.find?_some h

theorem getNFById_mem (s : Store) (u : String) (nf : NF) (h : getNFById s u = some nf) :
    nf ∈ s.nodes :=
  List.mem_of_find?_eq_some h

theorem updateNF_mem_other (s : Store) (i : String) (nf n : NF)
    (hn : n ∈ s.nodes) (hne : n.id ≠ i) : n ∈ (updateNF s i nf).nodes := by
  unfold updateNF
  have := List.mem_map_of_mem (fun q => if q.id == i then nf else q) hn
  simpa [hne] using this

theorem getSession_idem (m : Sessions) (u : String) :
    getSession (getSession m u).2 u = ((getSession m u).1, (getSession m u).2) := by
  rcases h : List.find? (fun q => q.1 == u) m with _ | p
  · rw [getSession_missing m u h]
    have h2 : List.find? (fun q => q.1 == u) (List.append m [(u, defaultSession)])
        = some (u, defaultSession) := by
      have := find_append_of_none (fun q => q.1 == u) m [(u, defaultSession)] h
      simpa [List.find?] using this
    rw [getSession_found _ u _ h2]
  · rw [getSession_found m u p h, getSession_found m u p h]

theorem getSession_double_set (m : Sessions) (u : String) (x y : Session) :
    (getSession (setSession (setSession (getSession m u).2 u x) u y) u).1 = y := by
  rw [getSession_of_set _ u y (setSession_haskey _ u x (getSession_snd_haskey m u))]

theorem allocateUEIP_id (upf ue : NF) : (allocateUEIP upf ue).2.id = upf.id := by
  unfold allocateUEIP
  rcases h : upf.config.tun0Interface with _ | t
  · simp [h]
  · simp [h]

/-- C3: allocate scans addresses from the pool's next-free counter upward
within the bounded range up to octet 14, returns the first octet not present
in the allocation mapping, records the mapping entry and advances the counter
past the returned value; on range exhaustion it returns the fixed fallback
octet 2 without recording anything; and from a fresh pool with counter 2, 13
consecutive allocations return the 13 distinct in-range octets 2..14 and the
14th returns the fallback 2. -/
theorem allocateUEIP_spec :
    (∀ (t : Tun0) (uid un : String) (k : Nat), 2 ≤ effNext t → isFirstFree t k →
        (allocPool t uid un).1 = k ∧ 2 ≤ k ∧ k ≤ 14 ∧
        (⟨uid, un, k⟩ : AssignedIP) ∈ poolIPs (allocPool t uid un).2 ∧
        effNext (allocPool t uid un).2 = k + 1) ∧
    (∀ (t : Tun0) (uid un : String),
        (∀ j, effNext t ≤ j → j ≤ 14 → ipTaken t j = true) →
        allocPool t uid un = (2, t)) ∧
    (allocSeq pool0 ues14).1 = [2, 3, 4, 5, 6, 7, 8, 9, 10, 11, 12, 13, 14, 2] := by
  refine ⟨?_, ?_, by decide⟩
  · intro t uid un k h2 hff
    have hfind : allocFind (poolIPs t) (effNext t) = some k := (allocFind_iff t k).mpr hff
    obtain ⟨hg1, hg2, hg3, _⟩ := hff
    obtain ⟨e1, e2, e3⟩ := allocPool_found t uid un k hfind
    refine ⟨e1, by omega, hg2, ?_, e3⟩
    rw [e2]
    simp
  · intro t uid un hall
    rcases hf : allocFind (poolIPs t) (effNext t) with _ | k
    · exact allocPool_exhausted t uid un hf
    · exfalso
      obtain ⟨hk1, hk2, hk3, _⟩ := allocFindAux_some_spec (poolIPs t) (15 - effNext t)
        (effNext t) k hf
      have := hall k hk1 hk2
      rw [ipTaken] at this
      rw [this] at hk3
      cases hk3

/-- Witness for allocateUEIP_spec: the first allocation from the fresh
scenario pool returns octet 2, records it and advances the counter to 3. -/
theorem allocateUEIP_spec_witness :
    (allocPool pool0 "u1" "n1").1 = 2 ∧ 2 ≤ 2 ∧ 2 ≤ 14 ∧
      (⟨"u1", "n1", 2⟩ : AssignedIP) ∈ poolIPs (allocPool pool0 "u1" "n1").2 ∧
      effNext (allocPool pool0 "u1" "n1").2 = 2 + 1 ∧
      allocPool ⟨some "10.0.0.1", some 15, some []⟩ "u1" "n1"
        = (2, ⟨some "10.0.0.1", some 15, some []⟩) := by
  refine ⟨?_, ?_, ?_, ?_, ?_, ?_⟩
  · exact (allocateUEIP_spec.1 pool0 "u1" "n1" 2 (by decide) (by decide)).1
  · exact (allocateUEIP_spec.1 pool0 "u1" "n1" 2 (by decide) (by decide)).2.1
  · exact (allocateUEIP_spec.1 pool0 "u1" "n1" 2 (by decide) (by decide)).2.2.1
  · exact (allocateUEIP_spec.1 pool0 "u1" "n1" 2 (by decide) (by decide)).2.2.2.1
  · exact (allocateUEIP_spec.1 pool0 "u1" "n1" 2 (by decide) (by decide)).2.2.2.2
  · exact allocateUEIP_spec.2.1 ⟨some "10.0.0.1", some 15, some []⟩ "u1" "n1"
      (by intro j hj1 hj2; simp [effNext, jsOrNat] at hj1; omega)

/-- C4 counterexample: allocate octet 2 to ue1 and octet 3 to ue2 from the
fresh pool, then release ue2. The freed octet 3 is absent from the mapping,
yet NO sequence of later pool operations can make an allocate call return it
again: the next-free counter has advanced past it and never rewinds. -/
theorem allocate_no_reuse_cex :
    (allocPool (allocPool pool0 "ue1" "UE-1").2 "ue2" "UE-2").1 = 3 ∧
    ((poolIPs (poolStep (allocPool (allocPool pool0 "ue1" "UE-1").2 "ue2" "UE-2").2
        (PoolOp.free "ue2"))).all (fun a => a.ip != 3)) = true ∧
    ¬ ∃ ops : List PoolOp,
        traceReturns 3
          (poolStep (allocPool (allocPool pool0 "ue1" "UE-1").2 "ue2" "UE-2").2
            (PoolOp.free "ue2")) ops := by
  refine ⟨by decide, by decide, ?_⟩
  rintro ⟨ops, hops⟩
  exact traceReturns_not 3 (by omega) ops _ (by decide) hops

/-- C4 amended: a successfully allocated address lies in the range 2..14 and
is recorded in the pool mapping; the release-time filter removes every entry
of the owning terminal, so a uniquely-owned address disappears from the
mapping; but a freed address is NOT available for reallocation — any octet of
value at least 3 strictly below the next-free counter is never returned by an
allocate call in any sequence of later pool operations (only the fallback
octet 2 can reappear, unrecorded, on exhaustion). On the scenario store, the
full establish-release cycle assigns octet 2, frees it, and the next
allocation returns 3, not the freed 2. -/
theorem allocate_release_amended :
    (∀ (t : Tun0) (uid un : String) (k : Nat), 2 ≤ effNext t → isFirstFree t k →
        (allocPool t uid un).1 = k ∧ 2 ≤ k ∧ k ≤ 14 ∧
        (⟨uid, un, k⟩ : AssignedIP) ∈ poolIPs (allocPool t uid un).2) ∧
    (∀ (t : Tun0) (uid : String) (ip : Nat),
        (∀ a ∈ poolIPs t, a.ip = ip → a.ueId = uid) →
        ∀ a ∈ poolIPs (poolStep t (PoolOp.free uid)), a.ip ≠ ip) ∧
    (∀ (ops : List PoolOp) (t : Tun0) (ip : Nat), 3 ≤ ip → ip < effNext t →
        ¬ traceReturns ip t ops) ∧
    ((getSession (establishPDUSession scenarioStore [] "ue-1" 7 "gtp-1" none).2.1
        "ue-1").1.assignedIP = some 2 ∧
     ((getNFById (establishPDUSession scenarioStore [] "ue-1" 7 "gtp-1" none).1
        "upf-1").map (fun u => u.config.tun0Interface.map poolIPs))
        = some (some [⟨"ue-1", "UE-1", 2⟩]) ∧
     ((getNFById (releasePDUSession
          (establishPDUSession scenarioStore [] "ue-1" 7 "gtp-1" none).1
          (establishPDUSession scenarioStore [] "ue-1" 7 "gtp-1" none).2.1
          "ue-1" none).1 "upf-1").map (fun u => u.config.tun0Interface.map poolIPs))
        = some (some []) ∧
     (((getNFById (releasePDUSession
          (establishPDUSession scenarioStore [] "ue-1" 7 "gtp-1" none).1
          (establishPDUSession scenarioStore [] "ue-1" 7 "gtp-1" none).2.1
          "ue-1" none).1 "upf-1").bind (fun u => u.config.tun0Interface)).map
        (fun t => (allocPool t "ue-2" "UE-2").1)) = some 3) := by
  refine ⟨?_, ?_, ?_, by decide, by decide, by decide, by decide⟩
  · intro t uid un k h2 hff
    have hfind : allocFind (poolIPs t) (effNext t) = some k := (allocFind_iff t k).mpr hff
    obtain ⟨hg1, hg2, hg3, _⟩ := hff
    obtain ⟨e1, e2, _⟩ := allocPool_found t uid un k hfind
    refine ⟨e1, by omega, hg2, ?_⟩
    rw [e2]
    simp
  · intro t uid ip hown a ha hip
    rcases hl : t.assignedIPs with _ | l
    · simp [poolStep, poolIPs, hl] at ha
    · simp only [poolStep, poolIPs, hl, Option.map_some, Option.getD_some] at ha
      have hmem := List.mem_of_mem_filter ha
      have hpred := List.of_mem_filter ha
      have : a.ueId = uid := hown a (by simpa [poolIPs, hl] using hmem) hip
      simp [this] at hpred
  · exact fun ops t ip h3 hlt => traceReturns_not ip h3 ops t hlt

/-- Witness for allocate_release_amended: concrete instantiations of its
three quantified parts. -/
theorem allocate_release_amended_witness :
    ((allocPool pool0 "u1" "n1").1 = 2 ∧ 2 ≤ 2 ∧ 2 ≤ 14 ∧
      (⟨"u1", "n1", 2⟩ : AssignedIP) ∈ poolIPs (allocPool pool0 "u1" "n1").2) ∧
    (∀ a ∈ poolIPs (poolStep (⟨some "10.0.0.1", some 4, some [⟨"u1", "n1", 2⟩]⟩ : Tun0)
        (PoolOp.free "u1")), a.ip ≠ 2) ∧
    ¬ traceReturns 3 (⟨some "10.0.0.1", some 4, some []⟩ : Tun0)
        [PoolOp.alloc "u9" "n9"] := by
  refine ⟨?_, ?_, ?_⟩
  · exact allocate_release_amended.1 pool0 "u1" "n1" 2 (by decide) (by decide)
  · exact allocate_release_amended.2.1 ⟨some "10.0.0.1", some 4, some [⟨"u1", "n1", 2⟩]⟩
      "u1" 2 (by decide)
  · exact allocate_release_amended.2.2.1 [PoolOp.alloc "u9" "n9"]
      ⟨some "10.0.0.1", some 4, some []⟩ 3 (by decide) (by decide)

/-- C1 counterexample: establishment on the scenario topology with the step-5
exchange (session-anchor to mobility-anchor accept) throwing. The lifecycle
state is forced back to IDLE and the call fails, but partial state IS
retained: the address allocated during step 3 is still in the gateway pool
mapping and the session record still carries the assigned address. -/
theorem establish_fault_partial_state_cex :
    (establishPDUSession scenarioStore [] "ue-1" 7 "gtp-1" (some .step5)).2.2 = false ∧
    getSessionState (establishPDUSession scenarioStore [] "ue-1" 7 "gtp-1"
      (some .step5)).2.1 "ue-1" = .IDLE ∧
    ((getNFById (establishPDUSession scenarioStore [] "ue-1" 7 "gtp-1" (some .step5)).1
        "upf-1").map (fun u => u.config.tun0Interface.map poolIPs))
      = some (some [⟨"ue-1", "UE-1", 2⟩]) ∧
    (getSession (establishPDUSession scenarioStore [] "ue-1" 7 "gtp-1" (some .step5)).2.1
        "ue-1").1.assignedIP = some 2 := by
  exact ⟨by decide, by decide, by decide, by decide⟩

theorem getSessionState_double_set (m : Sessions) (u : String) (x y : Session) :
    getSessionState (setSession (setSession (getSession m u).2 u x) u y) u = y.state := by
  rw [getSessionState,
    getSession_of_set _ u y (setSession_haskey _ u x (getSession_snd_haskey m u))]

/-- C1 amended: when an establishment step throws after the sequence has
entered ESTABLISHING (prerequisites valid, previous state neither ACTIVE nor
ESTABLISHING), establishPDUSession catches the exception, forces the
lifecycle state back to IDLE and returns failure; but partial state is
retained rather than rolled back: for a fault in step 5 or step 6 the address
allocated in step 3 stays recorded in the gateway pool held by the store, and
the session record keeps the assigned address. -/
theorem establish_fault_amended :
    ∀ (s : Store) (m : Sessions) (ueId : String) (sid : Nat) (tid : String) (f : EstStep),
      (getSession m ueId).1.state ≠ .ACTIVE →
      (getSession m ueId).1.state ≠ .ESTABLISHING →
      (validatePrerequisites s ueId).valid = true →
      ((establishPDUSession s m ueId sid tid (some f)).2.2 = false ∧
       getSessionState (establishPDUSession s m ueId sid tid (some f)).2.1 ueId = .IDLE) ∧
      ((f = .step5 ∨ f = .step6) →
        ∀ ue amf smf upf : NF,
          validatePrerequisites s ueId = ⟨true, none, some ⟨ue, amf, smf, upf⟩⟩ →
          (getSession (establishPDUSession s m ueId sid tid (some f)).2.1 ueId).1.assignedIP
            = some (allocateUEIP upf ue).1 ∧
          getNFById (establishPDUSession s m ueId sid tid (some f)).1 upf.id
            = some (allocateUEIP upf ue).2) := by
  intro s m ueId sid tid f hns hne hv
  obtain ⟨ue0, amf0, smf0, upf0, hveq0, hue0, hty0, hmem0, hupfty0, htun0⟩ :=
    validate_valid_shape s ueId hv
  constructor
  · rcases f with _ | _ | _ | _ | _ | _
    · rw [establish_fault_pre s m ueId sid tid _ ue0 amf0 smf0 upf0 hns hne hveq0
        (Or.inl rfl)]
      exact ⟨rfl, getSessionState_double_set m ueId _ _⟩
    · rw [establish_fault_pre s m ueId sid tid _ ue0 amf0 smf0 upf0 hns hne hveq0
        (Or.inr (Or.inl rfl))]
      exact ⟨rfl, getSessionState_double_set m ueId _ _⟩
    · rw [establish_fault_pre s m ueId sid tid _ ue0 amf0 smf0 upf0 hns hne hveq0
        (Or.inr (Or.inr rfl))]
      exact ⟨rfl, getSessionState_double_set m ueId _ _⟩
    · rw [establish_fault_alloc s m ueId sid tid _ ue0 amf0 smf0 upf0 hns hne hveq0 rfl]
      exact ⟨rfl, getSessionState_double_set m ueId _ _⟩
    · rw [establish_fault_post s m ueId sid tid _ ue0 amf0 smf0 upf0 hns hne hveq0
        (Or.inl rfl)]
      exact ⟨rfl, getSessionState_double_set m ueId _ _⟩
    · rw [establish_fault_post s m ueId sid tid _ ue0 amf0 smf0 upf0 hns hne hveq0
        (Or.inr rfl)]
      exact ⟨rfl, getSessionState_double_set m ueId _ _⟩
  · intro hf56 ue amf smf upf hveq
    rw [hveq0] at hveq
    simp only [ValidationResult.mk.injEq, Option.some.injEq, NFSet.mk.injEq, true_and] at hveq
    obtain ⟨rfl, rfl, rfl, rfl⟩ := hveq
    have hf : some f = some EstStep.step5 ∨ some f = some EstStep.step6 := by
      rcases hf56 with rfl | rfl
      · exact Or.inl rfl
      · exact Or.inr rfl
    rw [establish_fault_post s m ueId sid tid (some f) ue0 amf0 smf0 upf0 hns hne hveq0 hf]
    constructor
    · rw [getSession_double_set m ueId _ _]
    · exact getNFById_update_self s upf0.id (allocateUEIP upf0 ue0).2
        ⟨upf0, hmem0, rfl⟩ (allocateUEIP_id upf0 ue0)

/-- Witness for establish_fault_amended on the scenario store with a step-5
fault. -/
theorem establish_fault_amended_witness :
    (((establishPDUSession scenarioStore [] "ue-1" 7 "gtp-1" (some .step5)).2.2 = false ∧
      getSessionState (establishPDUSession scenarioStore [] "ue-1" 7 "gtp-1"
        (some .step5)).2.1 "ue-1" = .IDLE) ∧
     ((getSession (establishPDUSession scenarioStore [] "ue-1" 7 "gtp-1"
          (some .step5)).2.1 "ue-1").1.assignedIP = some (allocateUEIP upfNode ueNode).1 ∧
      getNFById (establishPDUSession scenarioStore [] "ue-1" 7 "gtp-1"
          (some .step5)).1 upfNode.id = some (allocateUEIP upfNode ueNode).2)) := by
  have h := establish_fault_amended scenarioStore [] "ue-1" 7 "gtp-1" .step5
    (by decide) (by decide) (by decide)
  exact ⟨h.1, h.2 (Or.inl rfl) ueNode amfNode smfNode upfNode (by decide)⟩

/-- C2: for a terminal whose session is ACTIVE when releasePDUSession starts
its five-step sequence (prerequisites valid), the operation ends — with or
without a mid-sequence fault — with the session record reset to RELEASED with
all fields null, the terminal's persisted PDU-session and tunnel configuration
cleared, and the assigned address (owned in the pool solely by this terminal)
removed from the owning gateway pool mapping; the call returns success
exactly when no step threw. -/
theorem release_always_cleans :
    ∀ (s : Store) (m : Sessions) (ueId w : String) (ip : Nat) (upf : NF) (t : Tun0)
      (l : List AssignedIP) (f : Option (Fin 5)),
      (getSession m ueId).1.state = .ACTIVE →
      (validatePrerequisites s ueId).valid = true →
      (getSession m ueId).1.upfId = some w →
      (getSession m ueId).1.assignedIP = some ip →
      getNFById s w = some upf →
      upf.config.tun0Interface = some t →
      t.assignedIPs = some l →
      ueId ≠ w →
      (∀ a ∈ l, a.ip = ip → a.ueId = ueId) →
      (getSession (releasePDUSession s m ueId f).2.1 ueId).1
          = ⟨.RELEASED, none, none, none, none⟩ ∧
      (∃ u : NF, getNFById (releasePDUSession s m ueId f).1 ueId = some u ∧
        u.config.pduSession = none ∧ u.config.tunInterface = none ∧
        u.config.pduSessionState = some .RELEASED) ∧
      (∃ (u : NF) (t2 : Tun0), getNFById (releasePDUSession s m ueId f).1 w = some u ∧
        u.config.tun0Interface = some t2 ∧ ∀ a ∈ poolIPs t2, a.ip ≠ ip) ∧
      (releasePDUSession s m ueId f).2.2 = f.isNone := by
  intro s m ueId w ip upf t l f hact hv hw hip hupf ht hl hne hown
  obtain ⟨ue0, amf0, smf0, upf0, hveq0, hue0, hty0, _, _, _⟩ := validate_valid_shape s ueId hv
  have hrel := release_valid s m ueId f ue0 hact hue0 hv
  have hkey1 := getSession_snd_haskey m ueId
  have hget2 : getSession (setSession (getSession m ueId).2 ueId
        { (getSession m ueId).1 with state := .RELEASING }) ueId
      = ({ (getSession m ueId).1 with state := .RELEASING },
         setSession (getSession m ueId).2 ueId
           { (getSession m ueId).1 with state := .RELEASING }) :=
    getSession_of_set (getSession m ueId).2 ueId _ hkey1
  have hcs := cleanupSession_store s
    (setSession (getSession m ueId).2 ueId
      { (getSession m ueId).1 with state := .RELEASING })
    ueId w ip upf t l ue0
    (by rw [hget2]; exact hw) (by rw [hget2]; exact hip) hupf ht hl hue0
  have hcsess : (cleanupSession s
      (setSession (getSession m ueId).2 ueId
        { (getSession m ueId).1 with state := .RELEASING }) ueId).2
      = setSession (setSession (getSession m ueId).2 ueId
          { (getSession m ueId).1 with state := .RELEASING }) ueId
          ⟨.RELEASED, none, none, none, none⟩ := by
    rw [cleanupSession_sessions, hget2]
  have hueid : ue0.id = ueId := getNFById_id s ueId ue0 hue0
  have hupfid : upf.id = w := getNFById_id s w upf hupf
  refine ⟨?_, ?_, ?_, ?_⟩
  · simp only [hrel, hcsess]
    rw [getSession_of_set _ ueId _ (setSession_haskey _ ueId _ hkey1)]
  · simp only [hrel, hcs]
    refine ⟨{ ue0 with
        config := { ue0.config with
          pduSession := none, tunInterface := none,
          pduSessionState := some .RELEASED } }, ?_, rfl, rfl, rfl⟩
    apply getNFById_update_self
    · refine ⟨ue0, ?_, hueid⟩
      exact updateNF_mem_other s w _ ue0 (getNFById_mem s ueId ue0 hue0)
        (by rw [hueid]; exact hne)
    · exact hueid
  · simp only [hrel, hcs]
    refine ⟨{ upf with
        config := { upf.config with
          tun0Interface := some { t with
            assignedIPs := some (l.filter (fun a => a.ueId != ueId)) } } },
      { t with assignedIPs := some (l.filter (fun a => a.ueId != ueId)) }, ?_, rfl, ?_⟩
    · rw [getNFById_update_ne _ ueId w
        { ue0 with
          config := { ue0.config with
            pduSession := none, tunInterface := none,
            pduSessionState := some .RELEASED } } (Ne.symm hne) hueid]
      apply getNFById_update_self
      · exact ⟨upf, getNFById_mem s w upf hupf, hupfid⟩
      · exact hupfid
    · intro a ha hipa
      simp only [poolIPs, Option.getD_some] at ha
      have hmem := List.mem_of_mem_filter ha
      have hpred := List.of_mem_filter ha
      have : a.ueId = ueId := hown a hmem hipa
      simp [this] at hpred
  · simp only [hrel]

/-- Witness for release_always_cleans: the scenario store right after a
successful establishment, released without a fault. -/
theorem release_always_cleans_witness :
    (getSession (releasePDUSession estObs.1 estObs.2.1 "ue-1" none).2.1 "ue-1").1
        = ⟨.RELEASED, none, none, none, none⟩ ∧
    (∃ u : NF, getNFById (releasePDUSession estObs.1 estObs.2.1 "ue-1" none).1 "ue-1"
        = some u ∧ u.config.pduSession = none ∧ u.config.tunInterface = none ∧
        u.config.pduSessionState = some .RELEASED) ∧
    (∃ (u : NF) (t2 : Tun0),
        getNFById (releasePDUSession estObs.1 estObs.2.1 "ue-1" none).1 "upf-1" = some u ∧
        u.config.tun0Interface = some t2 ∧ ∀ a ∈ poolIPs t2, a.ip ≠ 2) ∧
    (releasePDUSession estObs.1 estObs.2.1 "ue-1" none).2.2
      = (none : Option (Fin 5)).isNone :=
  release_always_cleans estObs.1 estObs.2.1 "ue-1" "upf-1" 2 (allocateUEIP upfNode ueNode).2
    ⟨some "10.0.0.1", some 3, some [⟨"ue-1", "UE-1", 2⟩]⟩ [⟨"ue-1", "UE-1", 2⟩] none
    (by decide) (by decide) (by decide) (by decide) (by decide) (by decide) (by decide)
    (by decide) (by decide)

/-- A gateway node whose pool already holds the terminal address octet 2 and
whose free-address counter stands at 3. -/
def upfNode2 : NF :=
  ⟨"upf-1", "UPF-1", "UPF", "stable", (400, 341),
   { nfConfigBase with
     ipAddress := some "192.168.1.13",
     tun0Interface := some ⟨some "10.0.0.1", some 3, some [⟨"ue-1", "UE-1", 2⟩]⟩ }⟩

/-- A session map holding one ACTIVE session bound to that gateway. -/
def sessActive2 : Sessions :=
  [("ue-1", ⟨.ACTIVE, some 7, some 2, some "gtp-1", some "upf-1"⟩)]

theorem updateNF_exists_id (s : Store) (j : String) (nf : NF) (i : String)
    (hid : nf.id = j) (h : ∃ n ∈ s.nodes, n.id = i) :
    ∃ n ∈ (updateNF s j nf).nodes, n.id = i := by
  obtain ⟨n, hn, hni⟩ := h
  by_cases hj : n.id = j
  · refine ⟨nf, ?_, ?_⟩
    · unfold updateNF
      simp only [List.mem_map]
      exact ⟨n, hn, by simp [hj]⟩
    · rw [hid, ← hj]
      exact hni
  · exact ⟨n, updateNF_mem_other s j nf n hn hj, hni⟩

theorem cleanupSession_ue_cleared (s : Store) (m : Sessions) (ueId : String) (ue : NF)
    (hue : getNFById s ueId = some ue) :
    getNFById (cleanupSession s m ueId).1 ueId
      = some { ue with config := { ue.config with
          pduSession := none, tunInterface := none,
          pduSessionState := some .RELEASED } } := by
  have hid : ue.id = ueId := getNFById_id s ueId ue hue
  have hex : ∃ n ∈ s.nodes, n.id = ueId := ⟨ue, getNFById_mem s ueId ue hue, hid⟩
  rcases hw : (getSession m ueId).1.upfId with _ | w
  · unfold cleanupSession
    simp only [hue, hw]
    exact getNFById_update_self _ ueId _ hex hid
  · rcases hip : (getSession m ueId).1.assignedIP with _ | ip
    · unfold cleanupSession
      simp only [hue, hw, hip]
      exact getNFById_update_self _ ueId _ hex hid
    · rcases hupf : getNFById s w with _ | upf
      · unfold cleanupSession
        simp only [hue, hw, hip, hupf]
        exact getNFById_update_self _ ueId _ hex hid
      · rcases ht : upf.config.tun0Interface with _ | t
        · unfold cleanupSession
          simp only [hue, hw, hip, hupf, ht]
          exact getNFById_update_self _ ueId _ hex hid
        · rcases hl : t.assignedIPs with _ | l
          · unfold cleanupSession
            simp only [hue, hw, hip, hupf, ht, hl]
            exact getNFById_update_self _ ueId _ hex hid
          · unfold cleanupSession
            simp only [hue, hw, hip, hupf, ht, hl]
            refine getNFById_update_self _ ueId _ ?_ hid
            exact updateNF_exists_id s w _ ueId (getNFById_id s w upf hupf) hex

/-- C10 counterexample: a session map holds an ACTIVE session for a terminal
whose node has been deleted from the store (a prerequisite failure). Release
returns false — not true — and performs no cleanup: the session stays ACTIVE. -/
theorem release_missing_node_cex :
    (releasePDUSession ⟨[], [], [], []⟩
        [("ue-1", ⟨.ACTIVE, some 1, some 2, some "gtp-1", some "upf-1"⟩)] "ue-1" none).2.2
      = false ∧
    getSessionState (releasePDUSession ⟨[], [], [], []⟩
        [("ue-1", ⟨.ACTIVE, some 1, some 2, some "gtp-1", some "upf-1"⟩)] "ue-1" none).2.1
      "ue-1" = .ACTIVE := by
  exact ⟨by decide, by decide⟩

/-- C10 amended: for an ACTIVE session whose prerequisites no longer
validate, releasePDUSession distinguishes two cases. If the terminal node
itself is missing from the store it returns false immediately with no cleanup
(the session stays ACTIVE). If the terminal node exists, it skips the five
release exchanges, performs local cleanup only — session record reset to
RELEASED with null fields, terminal config cleared, and every pool entry of
this terminal removed from the named gateway pool — and returns true. -/
theorem release_invalid_prereq_amended :
    ∀ (s : Store) (m : Sessions) (ueId : String) (f : Option (Fin 5)),
      (getSession m ueId).1.state = .ACTIVE →
      ((getNFById s ueId = none →
          releasePDUSession s m ueId f = (s, (getSession m ueId).2, false) ∧
          getSessionState (getSession m ueId).2 ueId = .ACTIVE) ∧
       (∀ ue : NF, getNFById s ueId = some ue →
          (validatePrerequisites s ueId).valid = false →
          (releasePDUSession s m ueId f).2.2 = true ∧
          (getSession (releasePDUSession s m ueId f).2.1 ueId).1
            = ⟨.RELEASED, none, none, none, none⟩ ∧
          (∃ u : NF, getNFById (releasePDUSession s m ueId f).1 ueId = some u ∧
            u.config.pduSession = none ∧ u.config.tunInterface = none ∧
            u.config.pduSessionState = some .RELEASED) ∧
          (∀ (w : String) (ip : Nat) (upf : NF) (t : Tun0) (l : List AssignedIP),
            (getSession m ueId).1.upfId = some w →
            (getSession m ueId).1.assignedIP = some ip →
            getNFById s w = some upf →
            upf.config.tun0Interface = some t →
            t.assignedIPs = some l →
            ueId ≠ w →
            (∀ a ∈ l, a.ip = ip → a.ueId = ueId) →
            ∃ (u : NF) (t2 : Tun0),
              getNFById (releasePDUSession s m ueId f).1 w = some u ∧
              u.config.tun0Interface = some t2 ∧ ∀ a ∈ poolIPs t2, a.ip ≠ ip))) := by
  intro s m ueId f hact
  constructor
  · intro hn
    refine ⟨release_no_node s m ueId f hact hn, ?_⟩
    simp only [getSessionState]
    rw [getSession_idem m ueId]
    exact hact
  · intro ue hn hv
    have hrel := release_invalid s m ueId f ue hact hn hv
    have hkey1 := getSession_snd_haskey m ueId
    have hget1 : getSession (getSession m ueId).2 ueId
        = ((getSession m ueId).1, (getSession m ueId).2) := getSession_idem m ueId
    have hcsess : (cleanupSession s (getSession m ueId).2 ueId).2
        = setSession (getSession m ueId).2 ueId ⟨.RELEASED, none, none, none, none⟩ := by
      rw [cleanupSession_sessions, hget1]
    have hueid : ue.id = ueId := getNFById_id s ueId ue hn
    refine ⟨?_, ?_, ?_, ?_⟩
    · rw [hrel]
    · simp only [hrel, hcsess]
      rw [getSession_of_set _ ueId _ hkey1]
    · simp only [hrel]
      exact ⟨_, cleanupSession_ue_cleared s (getSession m ueId).2 ueId ue hn, rfl, rfl, rfl⟩
    · intro w ip upf t l hw hip hupf ht hl hnw hown
      have hcs := cleanupSession_store s (getSession m ueId).2 ueId w ip upf t l ue
        (by rw [hget1]; exact hw) (by rw [hget1]; exact hip) hupf ht hl hn
      have hupfid : upf.id = w := getNFById_id s w upf hupf
      simp only [hrel, hcs]
      refine ⟨{ upf with
          config := { upf.config with
            tun0Interface := some { t with
              assignedIPs := some (l.filter (fun a => a.ueId != ueId)) } } },
        { t with assignedIPs := some (l.filter (fun a => a.ueId != ueId)) }, ?_, rfl, ?_⟩
      · rw [getNFById_update_ne _ ueId w
          { ue with
            config := { ue.config with
              pduSession := none, tunInterface := none,
              pduSessionState := some .RELEASED } } (Ne.symm hnw) hueid]
        apply getNFById_update_self
        · exact ⟨upf, getNFById_mem s w upf hupf, hupfid⟩
        · exact hupfid
      · intro a ha hipa
        simp only [poolIPs, Option.getD_some] at ha
        have hmem := List.mem_of_mem_filter ha
        have hpred := List.of_mem_filter ha
        have : a.ueId = ueId := hown a hmem hipa
        simp [this] at hpred

/-- Witness for release_invalid_prereq_amended at a store holding only the
terminal and a gateway with a pool entry: validation fails for lack of a
control node, yet release cleans the session, the terminal configuration and
the gateway pool and reports success. -/
theorem release_invalid_prereq_amended_witness :
    (releasePDUSession
        ⟨[ueNode, upfNode2], [], [], []⟩ sessActive2 "ue-1" none).2.2 = true ∧
    (getSession (releasePDUSession
        ⟨[ueNode, upfNode2], [], [], []⟩ sessActive2 "ue-1" none).2.1 "ue-1").1
      = ⟨.RELEASED, none, none, none, none⟩ ∧
    (∃ u : NF, getNFById (releasePDUSession
        ⟨[ueNode, upfNode2], [], [], []⟩ sessActive2 "ue-1" none).1 "ue-1" = some u ∧
      u.config.pduSession = none ∧ u.config.tunInterface = none ∧
      u.config.pduSessionState = some .RELEASED) ∧
    (∃ (u : NF) (t2 : Tun0),
      getNFById (releasePDUSession
          ⟨[ueNode, upfNode2], [], [], []⟩ sessActive2 "ue-1" none).1 "upf-1" = some u ∧
      u.config.tun0Interface = some t2 ∧ ∀ a ∈ poolIPs t2, a.ip ≠ 2) := by
  have h := (release_invalid_prereq_amended
      ⟨[ueNode, upfNode2], [], [], []⟩ sessActive2 "ue-1" none (by decide)).2
      ueNode (by decide) (by decide)
  refine ⟨h.1, h.2.1, h.2.2.1, ?_⟩
  exact h.2.2.2 "upf-1" 2 upfNode2
    ⟨some "10.0.0.1", some 3, some [⟨"ue-1", "UE-1", 2⟩]⟩ [⟨"ue-1", "UE-1", 2⟩]
    (by decide) (by decide) (by decide) (by decide) (by decide) (by decide) (by decide)

/-- C5 counterexample: on a topology where a radio unit links two terminal
nodes, the source's reachability check connects the two terminals through the
radio-unit bridge, although the claimed rule demands that exactly one of the
two nodes be a terminal; the relation as the claim words it is false there. -/
theorem areNFsConnected_spec_mismatch_cex :
    areNFsConnected bothUEStore "ue-a" "ue-b" = true ∧
    specAreConnected bothUEStore "ue-a" "ue-b" = false ∧
    exactlyOneUE bothUEStore "ue-a" "ue-b" = false := by decide

/-- C5 amended: the reachability check returns true exactly for a direct
link, a shared bus, or the radio-unit bridge as the source actually evaluates
it — at least one of the two nodes is terminal-typed, and the scan walks the
FIRST argument's links for a radio-unit candidate from which the recursion
reaches the other node; and on a well-formed store it returns false without
error when neither node exists. -/
theorem areNFsConnected_amended :
    ∀ (s : Store) (a b : String),
      (areNFsConnected s a b = true ↔
        DirectLinked s a b ∨ SharesBus s a b ∨ GnbBridged s a b) ∧
      (WfStore s → getNFById s a = none → getNFById s b = none →
        areNFsConnected s a b = false) := by
  intro s a b
  exact ⟨areNFsConnected_characterization s a b,
    fun wf ha hb => areNFsConnected_absent s a b wf ha hb⟩

/-- Witness for areNFsConnected_amended: on the empty store both lookups fail
and the relation is false. -/
theorem areNFsConnected_amended_witness :
    areNFsConnected (⟨[], [], [], []⟩ : Store) "ue-x" "amf-x" = false :=
  (areNFsConnected_amended ⟨[], [], [], []⟩ "ue-x" "amf-x").2
    (by constructor
        · intro c hc
          exact absurd hc (List.not_mem_nil c)
        · intro bc hbc
          exact absurd hbc (List.not_mem_nil bc))
    rfl rfl

/-- C6: the reachability check is not symmetric. On a store holding a
terminal, a radio unit and a mobility anchor, where both stored links carry
the radio unit in their target slot, the check succeeds from the terminal to
the anchor but fails in the opposite direction: the radio-unit bridge always
scans the first argument's links, even when the terminal-typed node is the
second argument. -/
theorem areNFsConnected_asymmetric_bug :
    areNFsConnected symStore "ue-a" "amf-a" = true ∧
    areNFsConnected symStore "amf-a" "ue-a" = false := by decide

/-- A gateway node in the scenario subnet that lacks the address-pool
sub-interface. -/
def upfNoTun : NF :=
  ⟨"upf-0", "UPF-0", "UPF", "stable", (300, 341),
   { nfConfigBase with ipAddress := some "192.168.1.9" }⟩

/-- The scenario topology with the pool-less gateway stored ahead of the
properly configured one. -/
def storeS7 : Store :=
  ⟨[amfNode, smfNode, upfNoTun, upfNode, gnbNode, ueNode],
   [⟨"ue-1", "gnb-1"⟩, ⟨"gnb-1", "amf-1"⟩], [], []⟩

/-- C7 counterexample: the gateway clause is not existential. With a pool-less
gateway stored ahead of a fully configured one in the same subnet, validation
fails on the pool check of the FIRST matching gateway, although a stable
same-subnet gateway with an initialized pool exists in the store. -/
theorem validate_first_match_cex :
    validatePrerequisites storeS7 "ue-1"
      = invalidRes "UPF does not have tun0 interface configured" ∧
    upfNode ∈ storeS7.nodes ∧
    nfMatch "UPF" (getNetworkFromIP ueNode.config.ipAddress) upfNode = true ∧
    upfNode.config.tun0Interface.isSome = true := by decide

/-- C7 amended: validation checks its clauses in order with first-match
semantics — the terminal exists and is terminal-typed; credentials present;
the FIRST stable same-subnet mobility anchor found is reachable; a stable
same-subnet session anchor exists; the FIRST stable same-subnet gateway found
carries an initialized address pool — failing with the clause-specific reason
string of the first failing clause; and on the scenario topology it returns
valid with the four nodes identified. -/
theorem validatePrerequisites_amended :
    (∀ (s : Store) (u : String),
      (getNFById s u = none → validatePrerequisites s u = invalidRes "UE not found") ∧
      (∀ ue : NF, getNFById s u = some ue → ue.type ≠ "UE" →
        validatePrerequisites s u = invalidRes "UE not found") ∧
      (∀ ue : NF, getNFById s u = some ue → ue.type = "UE" →
        jsTruthyStr ue.config.subscriberImsi = false →
        validatePrerequisites s u
          = invalidRes "UE is not registered (no IMSI configured)") ∧
      (∀ ue : NF, getNFById s u = some ue → ue.type = "UE" →
        jsTruthyStr ue.config.subscriberImsi = true →
        (getAllNFs s).find? (nfMatch "AMF" (getNetworkFromIP ue.config.ipAddress)) = none →
        validatePrerequisites s u = invalidRes "No stable AMF found in same subnet") ∧
      (∀ ue amf : NF, getNFById s u = some ue → ue.type = "UE" →
        jsTruthyStr ue.config.subscriberImsi = true →
        (getAllNFs s).find? (nfMatch "AMF" (getNetworkFromIP ue.config.ipAddress))
          = some amf →
        areNFsConnected s ue.id amf.id = false →
        validatePrerequisites s u
          = invalidRes "UE is not connected to AMF (directly or via gNB)") ∧
      (∀ ue amf : NF, getNFById s u = some ue → ue.type = "UE" →
        jsTruthyStr ue.config.subscriberImsi = true →
        (getAllNFs s).find? (nfMatch "AMF" (getNetworkFromIP ue.config.ipAddress))
          = some amf →
        areNFsConnected s ue.id amf.id = true →
        (getAllNFs s).find? (nfMatch "SMF" (getNetworkFromIP ue.config.ipAddress)) = none →
        validatePrerequisites s u = invalidRes "No stable SMF found in same subnet") ∧
      (∀ ue amf smf : NF, getNFById s u = some ue → ue.type = "UE" →
        jsTruthyStr ue.config.subscriberImsi = true →
        (getAllNFs s).find? (nfMatch "AMF" (getNetworkFromIP ue.config.ipAddress))
          = some amf →
        areNFsConnected s ue.id amf.id = true →
        (getAllNFs s).find? (nfMatch "SMF" (getNetworkFromIP ue.config.ipAddress))
          = some smf →
        (getAllNFs s).find? (nfMatch "UPF" (getNetworkFromIP ue.config.ipAddress)) = none →
        validatePrerequisites s u = invalidRes "No stable UPF found in same subnet") ∧
      (∀ ue amf smf upf : NF, getNFById s u = some ue → ue.type = "UE" →
        jsTruthyStr ue.config.subscriberImsi = true →
        (getAllNFs s).find? (nfMatch "AMF" (getNetworkFromIP ue.config.ipAddress))
          = some amf →
        areNFsConnected s ue.id amf.id = true →
        (getAllNFs s).find? (nfMatch "SMF" (getNetworkFromIP ue.config.ipAddress))
          = some smf →
        (getAllNFs s).find? (nfMatch "UPF" (getNetworkFromIP ue.config.ipAddress))
          = some upf →
        upf.config.tun0Interface = none →
        validatePrerequisites s u
          = invalidRes "UPF does not have tun0 interface configured") ∧
      (∀ ue amf smf upf : NF, getNFById s u = some ue → ue.type = "UE" →
        jsTruthyStr ue.config.subscriberImsi = true →
        (getAllNFs s).find? (nfMatch "AMF" (getNetworkFromIP ue.config.ipAddress))
          = some amf →
        areNFsConnected s ue.id amf.id = true →
        (getAllNFs s).find? (nfMatch "SMF" (getNetworkFromIP ue.config.ipAddress))
          = some smf →
        (getAllNFs s).find? (nfMatch "UPF" (getNetworkFromIP ue.config.ipAddress))
          = some upf →
        upf.config.tun0Interface.isNone = false →
        validatePrerequisites s u = ⟨true, none, some ⟨ue, amf, smf, upf⟩⟩)) ∧
    validatePrerequisites scenarioStore "ue-1"
      = ⟨true, none, some ⟨ueNode, amfNode, smfNode, upfNode⟩⟩ := by
  refine ⟨fun s u => ⟨validate_of_missing s u, ?_, ?_, ?_, ?_, ?_, ?_, ?_, ?_⟩, by decide⟩
  · exact fun ue h ht => validate_of_wrong_type s u ue h ht
  · exact fun ue h ht hi => validate_of_no_imsi s u ue h ht hi
  · exact fun ue h ht hi hamf => validate_of_no_amf s u ue h ht hi hamf
  · exact fun ue amf h ht hi hamf hcon =>
      validate_of_unreachable s u ue amf h ht hi hamf hcon
  · exact fun ue amf h ht hi hamf hcon hsmf =>
      validate_of_no_smf s u ue amf h ht hi hamf hcon hsmf
  · exact fun ue amf smf h ht hi hamf hcon hsmf hupf =>
      validate_of_no_upf s u ue amf smf h ht hi hamf hcon hsmf hupf
  · exact fun ue amf smf upf h ht hi hamf hcon hsmf hupf htun =>
      validate_of_no_tun0 s u ue amf smf upf h ht hi hamf hcon hsmf hupf htun
  · exact fun ue amf smf upf h ht hi hamf hcon hsmf hupf htun =>
      validate_of_all s u ue amf smf upf h ht hi hamf hcon hsmf hupf htun

/-- Witness for validatePrerequisites_amended: the missing-terminal clause on
the empty store, the gateway-pool clause on the store with the pool-less
gateway stored first, and the scenario equation. -/
theorem validatePrerequisites_amended_witness :
    validatePrerequisites (⟨[], [], [], []⟩ : Store) "ue-9" = invalidRes "UE not found" ∧
    validatePrerequisites storeS7 "ue-1"
      = invalidRes "UPF does not have tun0 interface configured" ∧
    validatePrerequisites scenarioStore "ue-1"
      = ⟨true, none, some ⟨ueNode, amfNode, smfNode, upfNode⟩⟩ :=
  ⟨(validatePrerequisites_amended.1 ⟨[], [], [], []⟩ "ue-9").1 rfl,
   (validatePrerequisites_amended.1 storeS7 "ue-1").2.2.2.2.2.2.2.1 ueNode amfNode
     smfNode upfNoTun (by decide) (by decide) (by decide) (by decide) (by decide)
     (by decide) (by decide) (by decide),
   validatePrerequisites_amended.2⟩

/-- C8: for every scheduler state reachable from the idle animator, the loop
runs exactly when tokens are live (so it never ticks with an empty live set
and resumes on submission), and every live token with positive speed is,
after enough ticks, reported complete exactly once and removed from the live
set — its continuation fires exactly once, never zero times, never twice. -/
theorem packet_scheduler_spec :
    ∀ st : AnimState, ReachAnim st →
      (st.isRunning = true ↔ st.packets ≠ []) ∧
      (∀ (s : Store) (o : SendOptions), (sendPacket s st o).2 = false →
        (sendPacket s st o).1.isRunning = true) ∧
      (∀ p ∈ st.packets, 0 < p.speed →
        ∃ N : Nat, ∀ M : Nat, N ≤ M →
          (runFrames st M).2.count p.id = 1 ∧
          p.id ∉ (runFrames st M).1.packets.map Packet.id) := by
  intro st h
  refine ⟨reach_run_iff st h, ?_, ?_⟩
  · intro s o hsend
    unfold sendPacket at hsend ⊢
    rcases h1 : getNFById s o.sourceId with _ | src
    · rw [h1] at hsend
      rcases h2 : getNFById s o.targetId with _ | tgt <;> rw [h2] at hsend <;>
        simp at hsend
    · rcases h2 : getNFById s o.targetId with _ | tgt
      · rw [h1, h2] at hsend
        simp at hsend
      · rfl
  · intro p hp hsp
    obtain ⟨hnd, hbound, hpk⟩ := reach_inv st h
    obtain ⟨hseg, hlt⟩ := hpk p hp
    have hrun : st.isRunning = true := (reach_run_iff st h).mpr (List.ne_nil_of_mem hp)
    obtain ⟨N, hN⟩ := exists_nat_ge (((lenm1 p : ℚ) + 1 - totalProg p) / p.speed)
    refine ⟨N, fun M hM => ?_⟩
    apply completes_once p.id M st p hnd hrun hp rfl hseg hlt
    have h1 : ((lenm1 p : ℚ) + 1 - totalProg p) / p.speed ≤ (M : ℚ) :=
      le_trans hN (by exact_mod_cast hM)
    have h2 : (lenm1 p : ℚ) + 1 - totalProg p ≤ (M : ℚ) * p.speed := by
      rw [div_le_iff₀ hsp] at h1
      linarith
    linarith

/-- Witness for packet_scheduler_spec: the state right after one submission
to the two-node animation store. -/
theorem packet_scheduler_spec_witness :
    (animSt0.isRunning = true ↔ animSt0.packets ≠ []) ∧
    (∀ (s : Store) (o : SendOptions), (sendPacket s animSt0 o).2 = false →
      (sendPacket s animSt0 o).1.isRunning = true) ∧
    (∀ p ∈ animSt0.packets, 0 < p.speed →
      ∃ N : Nat, ∀ M : Nat, N ≤ M →
        (runFrames animSt0 M).2.count p.id = 1 ∧
        p.id ∉ (runFrames animSt0 M).1.packets.map Packet.id) :=
  packet_scheduler_spec animSt0
    (ReachAnim.send animStore ⟨"n1", "n2", some 1⟩ ⟨[], 0, false⟩ ReachAnim.init)

/-- C9: a submission whose source or target identifier resolves to no stored
node changes nothing — no token is created, no loop starts, no error is
raised — and immediately reports completion, so the caller's protocol step
proceeds as if the message had been delivered. -/
theorem sendPacket_missing_node :
    ∀ (s : Store) (st : AnimState) (o : SendOptions),
      getNFById s o.sourceId = none ∨ getNFById s o.targetId = none →
      sendPacket s st o = (st, true) := by
  intro s st o h
  unfold sendPacket
  rcases hs : getNFById s o.sourceId with _ | src
  · rcases ht : getNFById s o.targetId with _ | tgt <;> simp
  · rcases ht : getNFById s o.targetId with _ | tgt
    · simp
    · rcases h with h | h
      · rw [hs] at h
        exact Option.noConfusion h
      · rw [ht] at h
        exact Option.noConfusion h

/-- Witness for sendPacket_missing_node: a submission from an unknown node on
the scenario store. -/
theorem sendPacket_missing_node_witness :
    sendPacket scenarioStore ⟨[], 0, false⟩ ⟨"missing", "amf-1", none⟩
      = (⟨[], 0, false⟩, true) :=
  sendPacket_missing_node scenarioStore ⟨[], 0, false⟩ ⟨"missing", "amf-1", none⟩
    (Or.inl (by decide))
